import Mathlib

/-!
Verification of the VisionFEN capture-lifecycle state machine
(`src/components/vision-fen.tsx`) against its natural-language specification.

The component is a single-threaded, event-driven React component.  We embed it
shallowly:

* the component's `useState` fields and `useRef` handles become fields of a
  `Comp` record;
* each event handler (`requestCameraPermission`, `handleCapture`,
  `handleSubmit`, `handleReset`, `handleRetake`, `cleanupCamera`) becomes a
  total function `Comp → Comp`, translated line by line from the source;
* asynchronous completions (`getUserMedia` resolution/rejection, the
  `toBlob` callback, the `fetch` resolution/rejection) are separate events
  whose continuations are the corresponding source code after the `await`;
* the single `useEffect` with dependency list `[appState, imageDataUrl]`
  (which creates the Cropper instance and whose cleanup destroys it) is run
  after every event, re-firing exactly when its dependencies changed since its
  last run, as React does;
* the DOM refs are modelled as the spec's §9 directs ("global mutable resource
  handles … model as fields owned exclusively by one state-machine instance"):
  `videoRef.current`/`imageRef.current` are non-null while the component is
  mounted, `streamRef`/`cropperRef` are `Option` fields.  `setState` calls on
  an unmounted component are dropped (React semantics); ref mutations and the
  network request still happen.
* media streams live in a small world (`streams : List (Nat × List Bool)`,
  stream id ↦ running-flags of its tracks) so that stopping tracks and leaked
  still-running tracks are observable.

`pendingCamera` counts the unresolved `getUserMedia` promises: the Scan and
Retake buttons stay rendered (and clickable) while a permission prompt is
pending, so acquisitions can overlap; `cleanupCamera` runs only at click time,
so a grant that resolves after a later grant has already been superseded
overwrites `streamRef` without stopping the earlier stream — the earlier
stream keeps running unowned.  The blob encoding and the network submission
are single-shot in the source.  `ReachableNoOverlap` restricts traces to ones
in which a new acquisition starts only when none is pending; the unrestricted
step function (`stepE`, used by `runTrace`) allows overlap.
-/

namespace VisionFen

/-- The `AppState` enum of the source.  The spec's names are `Idle`,
`CameraOpen`, `ImageCaptured`, `Submitting` (= `Loading`), `Completed`
(= `FenReceived`), `Failed` (= `Error`). -/
inductive AppState
  | Idle
  | CameraOpen
  | ImageCaptured
  | Loading
  | FenReceived
  | Error
deriving DecidableEq, Repr

/-- Primitive JSON values (the bodies relevant to the wire contract are flat
objects whose fields are primitives). -/
inductive JPrim
  | jnull
  | jbool (b : Bool)
  | jnum (n : Int)
  | jstr (s : String)
deriving DecidableEq, Repr

/-- A parsed JSON response body: a primitive or a flat object. -/
inductive JValue
  | prim (p : JPrim)
  | jobj (fields : List (String × JPrim))
deriving DecidableEq, Repr

/-- JavaScript truthiness of a primitive (`if (result.fen)`): `null`, `false`,
`0` and `""` are falsy. -/
def JPrim.truthy : JPrim → Bool
  | .jnull => false
  | .jbool b => b
  | .jnum n => if n = 0 then false else true
  | .jstr s => if s = "" then false else true

/-- Property access `body.fen`: only objects have fields; a missing field is
`undefined` (here `none`, which is falsy). -/
def fenField : JValue → Option JPrim
  | .prim _ => none
  | .jobj fields => fields.lookup "fen"

/-- Truthiness of `result.fen` where the body may have failed to parse
(`none`). -/
def fenTruthy : Option JValue → Bool
  | none => false
  | some b =>
    match fenField b with
    | some v => v.truthy
    | none => false

/-- The error taxonomy of the spec (§7).  `NetworkFailure` is the
`throw new Error("Server responded with status: …")` site,
`InvalidServerResponse` the `throw new Error("Invalid response from server.")`
site of `handleSubmit`. -/
inductive ErrKind
  | PermissionDenied
  | CropEngineUnavailable
  | ImageEncodingFailed
  | NetworkFailure
  | InvalidServerResponse
deriving DecidableEq, Repr

/-- `response.ok`: HTTP status in 200–299. -/
def okStatus (status : Nat) : Bool := 200 ≤ status && status ≤ 299

/-- Classification of a submission response, translated from the body of the
`try` block in `handleSubmit`: a non-2xx status throws before parsing
(`NetworkFailure`); a 2xx body that fails to parse as JSON or whose `fen`
field is not truthy throws `InvalidServerResponse`; otherwise the (truthy)
`fen` value is returned. -/
def classifyResponse (status : Nat) (body : Option JValue) : Except ErrKind JPrim :=
  if okStatus status then
    match body with
    | none => .error .InvalidServerResponse
    | some b =>
      match fenField b with
      | some v => if v.truthy then .ok v else .error .InvalidServerResponse
      | none => .error .InvalidServerResponse
  else .error .NetworkFailure

/-- The Cropper.js instance held in `cropperRef`.  `destroy()` marks it
destroyed but does not null the ref (the source's effect cleanup calls
`cropperRef.current.destroy()` without clearing `cropperRef.current`). -/
structure CropperInst where
  destroyed : Bool
deriving DecidableEq, Repr

/-- The multipart request built by `handleSubmit`
(`formData.append("file", blob, "chessboard.jpg")` + `fetch(url, {method:
"POST", body: formData})`). -/
structure SubmitRequest where
  url : String
  method : String
  fieldName : String
  filename : String
  mime : String
deriving DecidableEq, Repr

/-- The hardcoded prediction endpoint of the source. -/
def predictUrl : String := "http://10.147.210.166:8000/predict"

/-- Request construction from `handleSubmit` (the blob's MIME type is the one
passed to `toBlob`). -/
def buildSubmitRequest (blobMime : String) : SubmitRequest :=
  { url := predictUrl, method := "POST", fieldName := "file",
    filename := "chessboard.jpg", mime := blobMime }

/-- Error message set by the `catch` of `requestCameraPermission`. -/
def cameraErrorMsg : String :=
  "Could not access the camera. Please check permissions and try again."

/-- Error message set when `window.Cropper` is not loaded. -/
def cropperMissingMsg : String := "Cropper.js not loaded. Please refresh the page."

/-- Error message set when `toBlob` yields `null`. -/
def encodingErrorMsg : String := "Could not process image for submission."

/-- Error message set by the `catch` of the submission `fetch`. -/
def fetchErrorMsg : String :=
  "Failed to get FEN. The server might be down or the image is not a valid chessboard."

/-- The captured still frame (`canvas.toDataURL("image/jpeg")`), an opaque
JPEG data URL. -/
def frameDataUrl : String := "data:image/jpeg;base64,frame"

/-- The whole component state: `useState` fields, `useRef` handles, the small
world of acquired media streams, the pending-completion flags for the three
asynchronous operations, the effect's last-seen dependencies, and observables
(toast count, issued requests). -/
structure Comp where
  appState : AppState
  imageDataUrl : Option String
  fen : Option JPrim
  error : Option String
  hasCameraPermission : Option Bool
  /-- `streamRef.current`: id of the owned stream. -/
  streamRef : Option Nat
  /-- `videoRef.current.srcObject`. -/
  videoSrcObject : Option Nat
  /-- All streams ever produced by `getUserMedia`: id ↦ running flag of each
  track. -/
  streams : List (Nat × List Bool)
  nextStreamId : Nat
  /-- `cropperRef.current`. -/
  cropperRef : Option CropperInst
  /-- Whether `window.Cropper` is loaded (fixed per page load). -/
  cropperLoaded : Bool
  /-- Whether the component is mounted; `videoRef.current`/`imageRef.current`
  are non-null exactly while mounted. -/
  mounted : Bool
  /-- Number of unresolved `getUserMedia` promises (each Scan/Retake click
  starts one; the buttons stay clickable while a prompt is pending). -/
  pendingCamera : Nat
  /-- A scheduled `toBlob` callback exists. -/
  pendingBlob : Bool
  /-- An in-flight `fetch` exists. -/
  pendingFetch : Bool
  /-- The dependencies `[appState, imageDataUrl]` at the effect's last run. -/
  lastDeps : AppState × Option String
  /-- Number of toasts fired so far. -/
  toasts : Nat
  /-- Requests issued so far. -/
  requests : List SubmitRequest
deriving DecidableEq, Repr

/-- Stop every track of stream `i` in the world. -/
def stopStream (i : Nat) (ss : List (Nat × List Bool)) : List (Nat × List Bool) :=
  ss.map fun p => if p.1 = i then (p.1, p.2.map fun _ => false) else p

/-- Tracks of stream `i` (empty if unknown). -/
def streamTracks (ss : List (Nat × List Bool)) (i : Nat) : List Bool :=
  (ss.lookup i).getD []

/-- All tracks of stream `i` are stopped. -/
def streamStopped (ss : List (Nat × List Bool)) (i : Nat) : Bool :=
  (streamTracks ss i).all fun t => t = false

/-- Some acquired stream still has a running track. -/
def anyRunningTrack (ss : List (Nat × List Bool)) : Bool :=
  ss.any fun p => p.2.any id

/-- `cleanupCamera` from the source:
if `streamRef.current` is set, stop all of its tracks and null the ref;
if `videoRef.current` exists (i.e. the component is mounted), clear
`srcObject`. -/
def cleanupCamera (c : Comp) : Comp :=
  let c1 :=
    match c.streamRef with
    | some i => { c with streams := stopStream i c.streams, streamRef := none }
    | none => c
  if c1.mounted then { c1 with videoSrcObject := none } else c1

/-- The synchronous part of `requestCameraPermission`: `cleanupCamera()` and
then `navigator.mediaDevices.getUserMedia(...)`, leaving the promise pending. -/
def requestCameraPermission (c : Comp) : Comp :=
  { cleanupCamera c with pendingCamera := c.pendingCamera + 1 }

/-- The continuation of `requestCameraPermission` after `getUserMedia`
resolves with a stream of `n` (running) tracks.  `setHasCameraPermission` and
the `if (videoRef.current)` block only take effect while mounted; the acquired
stream exists in the world either way. -/
def onCameraGranted (n : Nat) (c : Comp) : Comp :=
  let sid := c.nextStreamId
  let c1 := { c with pendingCamera := c.pendingCamera - 1,
                     streams := c.streams ++ [(sid, List.replicate n true)],
                     nextStreamId := sid + 1 }
  if c1.mounted then
    { c1 with hasCameraPermission := some true,
              videoSrcObject := some sid,
              streamRef := some sid,
              appState := .CameraOpen }
  else c1

/-- The `catch` of `requestCameraPermission` (permission denied /
unavailable): classify, store the message, enter `Error`, toast.  The toast
store is global and fires even after unmount; the `setState` calls do not. -/
def onCameraDenied (c : Comp) : Comp :=
  let c1 := { c with pendingCamera := c.pendingCamera - 1, toasts := c.toasts + 1 }
  if c1.mounted then
    { c1 with hasCameraPermission := some false,
              error := some cameraErrorMsg,
              appState := .Error }
  else c1

/-- `handleCapture`: rasterize the video surface, store the data URL, enter
`ImageCaptured`, then `cleanupCamera()` (all within one handler). -/
def handleCapture (c : Comp) : Comp :=
  if c.mounted then
    cleanupCamera { c with imageDataUrl := some frameDataUrl, appState := .ImageCaptured }
  else c

/-- `handleReset`: `cleanupCamera()` and clear every `useState` field. -/
def handleReset (c : Comp) : Comp :=
  { cleanupCamera c with
      imageDataUrl := none, fen := none, error := none,
      appState := .Idle, hasCameraPermission := none }

/-- `handleRetake`: clear the frame and the error, then
`requestCameraPermission()`. -/
def handleRetake (c : Comp) : Comp :=
  requestCameraPermission { c with imageDataUrl := none, error := none }

/-- The synchronous part of `handleSubmit`: the `if (!cropperRef.current)
return` guard, `setAppState(Loading)`, then `getCroppedCanvas(...).toBlob(...)`.
Calling `getCroppedCanvas` on a destroyed Cropper throws, so the `toBlob`
callback is only scheduled when the instance is still live (the enqueued
`setAppState` commits either way). -/
def handleSubmit (c : Comp) : Comp :=
  match c.cropperRef with
  | none => c
  | some cr =>
    let c1 := { c with appState := .Loading }
    if cr.destroyed then c1 else { c1 with pendingBlob := true }

/-- The `toBlob` callback of `handleSubmit`.  `ok = false` models a `null`
blob (`setError`/`setAppState(Error)` and an early return, before the
`try`/`finally`, so `imageDataUrl` is not cleared).  `ok = true` builds the
form data and starts the `fetch` (which happens regardless of mounting). -/
def onBlobReady (ok : Bool) (c : Comp) : Comp :=
  let c1 := { c with pendingBlob := false }
  if ok then
    { c1 with requests := c1.requests ++ [buildSubmitRequest "image/jpeg"],
              pendingFetch := true }
  else if c1.mounted then
    { c1 with error := some encodingErrorMsg, appState := .Error }
  else c1

/-- The continuation of `handleSubmit` after the `fetch` resolves with
`status` and a body.  Translated from the `try`/`catch`/`finally`: a non-ok
status or a non-truthy `result.fen` lands in the `catch` (shared message +
toast); a truthy `result.fen` is stored and the machine enters `FenReceived`;
the `finally` clears `imageDataUrl`.  No staleness/epoch check appears in the
source; `setState` on an unmounted component is dropped, the (global) toast is
not. -/
def onFetchResolved (status : Nat) (body : Option JValue) (c : Comp) : Comp :=
  let c1 := { c with pendingFetch := false }
  match classifyResponse status body with
  | .ok v =>
    if c1.mounted then
      { c1 with fen := some v, appState := .FenReceived, imageDataUrl := none }
    else c1
  | .error _ =>
    if c1.mounted then
      { c1 with error := some fetchErrorMsg, appState := .Error,
                toasts := c1.toasts + 1, imageDataUrl := none }
    else { c1 with toasts := c1.toasts + 1 }

/-- The continuation of `handleSubmit` when the `fetch` itself rejects
(transport error): the same `catch`/`finally`. -/
def onFetchRejected (c : Comp) : Comp :=
  let c1 := { c with pendingFetch := false }
  if c1.mounted then
    { c1 with error := some fetchErrorMsg, appState := .Error,
              toasts := c1.toasts + 1, imageDataUrl := none }
  else { c1 with toasts := c1.toasts + 1 }

/-- `cropperRef.current.destroy()` (the ref keeps pointing at the destroyed
instance). -/
def destroyCropper : Option CropperInst → Option CropperInst
  | some _ => some ⟨true⟩
  | none => none

/-- The cleanup of the source's `useEffect`: destroy the Cropper if one
exists. -/
def effectCleanup (c : Comp) : Comp :=
  { c with cropperRef := destroyCropper c.cropperRef }

/-- The body of the source's `useEffect`: when the rendered state is
`ImageCaptured` with a frame and the component is mounted
(`imageRef.current`), either construct a Cropper or, if `window.Cropper` is
not loaded, classify `CropEngineUnavailable` and enter `Error`. -/
def effectBody (c : Comp) : Comp :=
  if c.appState = .ImageCaptured ∧ c.mounted = true ∧ c.imageDataUrl ≠ none then
    if c.cropperLoaded then { c with cropperRef := some ⟨false⟩ }
    else { c with error := some cropperMissingMsg, appState := .Error }
  else c

/-- The effect's dependency list `[appState, imageDataUrl]`. -/
def depsOf (c : Comp) : AppState × Option String := (c.appState, c.imageDataUrl)

/-- Re-run the effect while its dependencies changed since its last run
(cleanup of the previous run first, then the body), as React does after each
commit.  The body can change `appState` at most once (to `Error`), so two
iterations always reach a fixpoint; fuel 3 is ample. -/
def runEffectsAux : Nat → Comp → Comp
  | 0, c => c
  | n + 1, c =>
    if depsOf c = c.lastDeps then c
    else runEffectsAux n (effectBody (effectCleanup { c with lastDeps := depsOf c }))

/-- Effects run only while the component is mounted (no renders afterwards). -/
def runEffects (c : Comp) : Comp :=
  if c.mounted then runEffectsAux 3 c else c

/-- The events of the machine: the user clicks available in the rendered
state (`renderContent`), the asynchronous completions, and component
teardown. -/
inductive Event
  | scanClick
  | cameraGrant (n : Nat)
  | cameraDeny
  | captureClick
  | resetClick
  | retakeClick
  | submitClick
  | blobReady (ok : Bool)
  | fetchResolve (status : Nat) (body : Option JValue)
  | fetchReject
  | unmount
deriving DecidableEq, Repr

/-- One step of the machine: `none` when the event cannot occur (its button is
not rendered, or no such completion is pending).  User clicks require the
corresponding card to be rendered; `renderContent` shows Scan only in `Idle`,
Capture/Close in `CameraOpen`, Retake/Submit in `ImageCaptured`, Start
Over in `FenReceived`, Try Again in `Error`, and nothing in `Loading`.
After each handler the effect re-fires if its dependencies changed.  On
unmount React runs the effect cleanup (only); nothing stops the camera. -/
def stepE (c : Comp) : Event → Option Comp
  | .scanClick =>
    if c.mounted = true ∧ c.appState = .Idle then
      some (runEffects (requestCameraPermission c))
    else none
  | .cameraGrant n =>
    if ¬ c.pendingCamera = 0 then some (runEffects (onCameraGranted n c)) else none
  | .cameraDeny =>
    if ¬ c.pendingCamera = 0 then some (runEffects (onCameraDenied c)) else none
  | .captureClick =>
    if c.mounted = true ∧ c.appState = .CameraOpen then
      some (runEffects (handleCapture c))
    else none
  | .resetClick =>
    if c.mounted = true ∧
        (c.appState = .CameraOpen ∨ c.appState = .FenReceived ∨ c.appState = .Error) then
      some (runEffects (handleReset c))
    else none
  | .retakeClick =>
    if c.mounted = true ∧ c.appState = .ImageCaptured then
      some (runEffects (handleRetake c))
    else none
  | .submitClick =>
    if c.mounted = true ∧ c.appState = .ImageCaptured ∧ c.cropperRef ≠ none then
      some (runEffects (handleSubmit c))
    else none
  | .blobReady ok =>
    if c.pendingBlob = true then some (runEffects (onBlobReady ok c)) else none
  | .fetchResolve status body =>
    if c.pendingFetch = true then some (runEffects (onFetchResolved status body c)) else none
  | .fetchReject =>
    if c.pendingFetch = true then some (runEffects (onFetchRejected c)) else none
  | .unmount =>
    if c.mounted = true then some { effectCleanup c with mounted := false } else none

/-- The freshly mounted component (all `useState` initial values, empty refs);
`loaded` records whether the Cropper.js script finished loading. -/
def initComp (loaded : Bool) : Comp :=
  { appState := .Idle, imageDataUrl := none, fen := none, error := none,
    hasCameraPermission := none, streamRef := none, videoSrcObject := none,
    streams := [], nextStreamId := 0, cropperRef := none, cropperLoaded := loaded,
    mounted := true, pendingCamera := 0, pendingBlob := false,
    pendingFetch := false, lastDeps := (.Idle, none), toasts := 0, requests := [] }

/-- An event does not start a camera acquisition while one is already
pending.  The source permits overlap (the buttons stay clickable); this
predicate carves out the overlap-free traces for the amended C2. -/
def overlapFree (c : Comp) : Event → Bool
  | .scanClick => c.pendingCamera == 0
  | .retakeClick => c.pendingCamera == 0
  | _ => true

/-- States reachable from a freshly mounted component by sequences of events
in which no camera acquisition is started while another is still pending. -/
inductive ReachableNoOverlap : Comp → Prop
  | init (loaded : Bool) : ReachableNoOverlap (initComp loaded)
  | step {c c' : Comp} (e : Event) (hr : ReachableNoOverlap c)
      (hof : overlapFree c e = true) (hs : stepE c e = some c') :
      ReachableNoOverlap c'

/-- Run a list of events from the initial component, failing if any event is
unavailable. -/
def runFrom (c : Comp) : List Event → Option Comp
  | [] => some c
  | e :: es =>
    match stepE c e with
    | some c' => runFrom c' es
    | none => none

/-- Run a trace from the freshly mounted component. -/
def runTrace (loaded : Bool) (es : List Event) : Option Comp :=
  runFrom (initComp loaded) es

/-- A camera stream is live: some acquired stream still has a running track
(whether or not `streamRef` still owns it — the stream of a superseded grant
keeps running after its ownership is overwritten). -/
def camLive (c : Comp) : Bool := anyRunningTrack c.streams

/-- Every stream with a running track is the one `streamRef` owns. -/
def ownedRunning (sR : Option Nat) (ss : List (Nat × List Bool)) : Bool :=
  ss.all fun p => !(p.2.any id) || (sR == some p.1)

/-- Liveness of the ref'd Cropper: present and not destroyed. -/
def cropLiveOpt : Option CropperInst → Bool
  | some cr => !cr.destroyed
  | none => false

/-- A live crop session exists. -/
def cropLive (c : Comp) : Bool := cropLiveOpt c.cropperRef

/-- A submission is in flight. -/
def subLive (c : Comp) : Bool := c.pendingFetch

/-- The view produced by `renderContent` (presentation detail elided; the
`Error` case is the persistent error card showing `error` with the Try
Again button). -/
inductive View
  | idleV
  | cameraV
  | cropV
  | loadingV
  | fenV (f : Option JPrim)
  | errorV (msg : Option String)
deriving DecidableEq, Repr

/-- `renderContent`, keyed on `appState`. -/
def renderContent (c : Comp) : View :=
  match c.appState with
  | .Idle => .idleV
  | .CameraOpen => .cameraV
  | .ImageCaptured => .cropV
  | .Loading => .loadingV
  | .FenReceived => .fenV c.fen
  | .Error => .errorV c.error

end VisionFen

namespace VisionFen

/-- The options object passed to `getCroppedCanvas` in `handleSubmit`:
`{width: 512, height: 512, imageSmoothingEnabled: true,
imageSmoothingQuality: "high"}`. -/
structure CanvasOpts where
  width : Nat
  height : Nat
  imageSmoothingEnabled : Bool
  imageSmoothingQuality : String
deriving DecidableEq, Repr

/-- The literal options of the source. -/
def cropOpts : CanvasOpts :=
  { width := 512, height := 512, imageSmoothingEnabled := true,
    imageSmoothingQuality := "high" }

/-- A canvas produced by the crop engine. -/
structure CroppedCanvas where
  width : Nat
  height : Nat
deriving DecidableEq, Repr

/-- An encoded image blob. -/
structure EncodedBlob where
  mime : String
  width : Nat
  height : Nat
deriving DecidableEq, Repr

/-- Modelled from the spec: the third-party crop engine (Cropper.js, an
external collaborator, not part of `src/`) must "expose crop-to-canvas
rendering at an arbitrary target size" (spec §6): `getCroppedCanvas` with
explicit `width` and `height` renders the current crop selection at exactly
the requested size, whatever the source frame resolution. -/
def getCroppedCanvas (frameW frameH : Nat) (opts : CanvasOpts) : CroppedCanvas :=
  { width := opts.width, height := opts.height }

/-- Modelled from the spec: `canvas.toBlob(cb, mime)` encodes the canvas
pixels into a compressed blob of the requested MIME type, or hands the
callback `null` when rendering produced no data (`encodeOk = false`). -/
def canvasToBlob (cv : CroppedCanvas) (mime : String) (encodeOk : Bool) :
    Option EncodedBlob :=
  if encodeOk then some { mime := mime, width := cv.width, height := cv.height }
  else none

/-- The finalize pipeline of `handleSubmit`:
`getCroppedCanvas({width: 512, height: 512, ...}).toBlob(cb, "image/jpeg")`,
for a source frame of resolution `frameW × frameH`. -/
def finalizeCrop (frameW frameH : Nat) (encodeOk : Bool) : Option EncodedBlob :=
  canvasToBlob (getCroppedCanvas frameW frameH cropOpts) "image/jpeg" encodeOk

/-- Number of toasts the source fires on an event that enters the `Error`
state: the `catch` of `requestCameraPermission` and the `catch` of the
submission toast; the Cropper-missing and null-blob paths do not. -/
def toastsOnFailure : Event → Nat
  | .cameraDeny => 1
  | .fetchResolve _ _ => 1
  | .fetchReject => 1
  | _ => 0

/-- A component amid a submission: state `Loading` with the `fetch` in
flight. -/
def compSubmitting : Comp :=
  { (initComp true) with appState := .Loading, pendingFetch := true,
                         lastDeps := (.Loading, none) }

/-- The component after the user reset while the submission was still
pending (nothing cancels the `fetch`). -/
def compResetDuringFetch : Comp := runEffects (handleReset compSubmitting)

/-- The spec's example FEN string. -/
def fenExample : String := "8/8/8/8/8/8/8/8 w - - 0 1"

/-- A well-formed success body: `{"fen": "8/8/8/8/8/8/8/8 w - - 0 1"}`. -/
def fenBody : JValue := .jobj [("fen", .jstr fenExample)]

/-- The component after clicking Scan on a fresh mount. -/
def compScan : Comp := (stepE (initComp true) .scanClick).getD (initComp true)

/-- The component after the camera grant resolves: `CameraOpen` with a live
one-track stream. -/
def compCam : Comp := (stepE compScan (.cameraGrant 1)).getD compScan

/-- A component owning a live two-track stream bound to the video surface. -/
def compWithStream : Comp :=
  { (initComp true) with appState := .CameraOpen, streamRef := some 0,
                         videoSrcObject := some 0, streams := [(0, [true, true])],
                         nextStreamId := 1, lastDeps := (.CameraOpen, none) }

/-- A component waiting for the `toBlob` callback of a submission. -/
def compBlobPending : Comp :=
  { (initComp true) with appState := .Loading, pendingBlob := true,
                         lastDeps := (.Loading, none) }

/-- The component after the blob arrives and the `fetch` is issued. -/
def compFetchStarted : Comp :=
  (stepE compBlobPending (.blobReady true)).getD compBlobPending

/-- The component that failed a submission over the network. -/
def compFailedNet : Comp :=
  (stepE compSubmitting .fetchReject).getD compSubmitting

end VisionFen

namespace VisionFen

/-! ## Basic lemmas about the effect runner -/

theorem cropLiveOpt_destroy (x : Option CropperInst) :
    cropLiveOpt (destroyCropper x) = false := by
  cases x <;> rfl

theorem runEffectsAux_stable {c : Comp} (h : depsOf c = c.lastDeps) (n : Nat) :
    runEffectsAux n c = c := by
  cases n <;> simp [runEffectsAux, h]

theorem runEffects_stable {c : Comp} (h : depsOf c = c.lastDeps) :
    runEffects c = c := by
  unfold runEffects
  split
  · exact runEffectsAux_stable h 3
  · rfl

theorem runEffects_unmounted {c : Comp} (h : ¬ c.mounted = true) :
    runEffects c = c := by
  simp [runEffects, h]

/-- The fields never touched by the effect (everything except `appState`,
`error`, `cropperRef`, `lastDeps`). -/
def quiet (c : Comp) :
    Option String × Option JPrim × Option Bool × Option Nat × Option Nat ×
    List (Nat × List Bool) × Nat × Bool × Bool × Nat × Bool × Bool × Nat ×
    List SubmitRequest :=
  (c.imageDataUrl, c.fen, c.hasCameraPermission, c.streamRef, c.videoSrcObject,
   c.streams, c.nextStreamId, c.cropperLoaded, c.mounted, c.pendingCamera,
   c.pendingBlob, c.pendingFetch, c.toasts, c.requests)

theorem quiet_effectCleanup (c : Comp) : quiet (effectCleanup c) = quiet c := rfl

theorem quiet_effectBody (c : Comp) : quiet (effectBody c) = quiet c := by
  unfold effectBody
  split
  · split <;> rfl
  · rfl

theorem quiet_runEffectsAux (n : Nat) : ∀ c : Comp, quiet (runEffectsAux n c) = quiet c := by
  induction n with
  | zero => intro c; rfl
  | succ n ih =>
    intro c
    rw [runEffectsAux]
    split
    · rfl
    · rw [ih, quiet_effectBody, quiet_effectCleanup]
      rfl

theorem quiet_runEffects (c : Comp) : quiet (runEffects c) = quiet c := by
  unfold runEffects
  split
  · exact quiet_runEffectsAux 3 c
  · rfl

/-- When the post-handler state is not `ImageCaptured`, the effect body is
inert, so `appState` and `error` survive the effect run as well. -/
theorem inert_runEffects {c : Comp} (h : ¬ c.appState = .ImageCaptured) :
    (runEffects c).appState = c.appState ∧ (runEffects c).error = c.error := by
  unfold runEffects
  split
  · rw [runEffectsAux]
    split
    · exact ⟨rfl, rfl⟩
    · have hb : effectBody (effectCleanup { c with lastDeps := depsOf c }) =
          effectCleanup { c with lastDeps := depsOf c } := by
        unfold effectBody
        rw [if_neg]
        intro hx
        exact h hx.1
      rw [hb, runEffectsAux_stable rfl]
      exact ⟨rfl, rfl⟩
  · exact ⟨rfl, rfl⟩

end VisionFen

namespace VisionFen

/-! ## The inductive invariant of the machine

`Inv` strengthens the spec's mutual-exclusion invariant just enough to be
inductive over overlap-free traces: the pending-completion flags pin down the
state they were started from (and exclude running camera tracks while a
submission is staged or in flight), at most one camera acquisition is
pending, a live Cropper only exists in a mounted component in `ImageCaptured`
over a stored frame with the camera released, an owned stream only exists in
`CameraOpen`, every running track belongs to the owned stream while mounted,
and the effect is quiescent while mounted. -/
structure Inv (c : Comp) : Prop where
  pf : c.pendingFetch = true →
    c.appState = .Loading ∧ c.streamRef = none ∧ cropLive c = false ∧
    c.pendingBlob = false ∧ c.pendingCamera = 0 ∧ anyRunningTrack c.streams = false
  pb : c.pendingBlob = true →
    c.appState = .Loading ∧ c.streamRef = none ∧ cropLive c = false ∧
    c.pendingCamera = 0 ∧ anyRunningTrack c.streams = false
  pc : ¬ c.pendingCamera = 0 → c.streamRef = none ∧ cropLive c = false
  pcle : c.pendingCamera ≤ 1
  cl : cropLive c = true →
    c.appState = .ImageCaptured ∧ c.streamRef = none ∧ c.imageDataUrl ≠ none ∧
    c.mounted = true
  sr : c.streamRef ≠ none → c.appState = .CameraOpen
  co : c.appState = .CameraOpen → c.pendingCamera = 0
  own : c.mounted = true → ownedRunning c.streamRef c.streams = true
  ld : c.mounted = true → c.lastDeps = depsOf c

theorem streamRef_none_of_ne {c : Comp} (hs : c.streamRef ≠ none → c.appState = .CameraOpen)
    (h : ¬ c.appState = .CameraOpen) : c.streamRef = none := by
  by_contra hx
  exact h (hs hx)

theorem cropLive_false_of_ne {c : Comp}
    (hc : cropLive c = true →
      c.appState = .ImageCaptured ∧ c.streamRef = none ∧ c.imageDataUrl ≠ none ∧
      c.mounted = true)
    (h : ¬ c.appState = .ImageCaptured) : cropLive c = false := by
  cases hcl : cropLive c with
  | false => rfl
  | true => exact absurd (hc hcl).1 h

theorem pendingFetch_false_of_ne {c : Comp}
    (hp : c.pendingFetch = true →
      c.appState = .Loading ∧ c.streamRef = none ∧ cropLive c = false ∧
      c.pendingBlob = false ∧ c.pendingCamera = 0 ∧ anyRunningTrack c.streams = false)
    (h : ¬ c.appState = .Loading) : c.pendingFetch = false := by
  cases hx : c.pendingFetch with
  | false => rfl
  | true => exact absurd (hp hx).1 h

theorem pendingBlob_false_of_ne {c : Comp}
    (hp : c.pendingBlob = true →
      c.appState = .Loading ∧ c.streamRef = none ∧ cropLive c = false ∧
      c.pendingCamera = 0 ∧ anyRunningTrack c.streams = false)
    (h : ¬ c.appState = .Loading) : c.pendingBlob = false := by
  cases hx : c.pendingBlob with
  | false => rfl
  | true => exact absurd (hp hx).1 h

theorem owned_none_no_running (ss : List (Nat × List Bool))
    (h : ownedRunning none ss = true) : anyRunningTrack ss = false := by
  induction ss with
  | nil => rfl
  | cons p rest ih =>
    simp only [ownedRunning, List.all_cons, Bool.and_eq_true] at h ih
    simp only [anyRunningTrack, List.any_cons, Bool.or_eq_false_iff]
    refine ⟨?_, ih h.2⟩
    have h1 := h.1
    cases hx : p.2.any id with
    | false => rfl
    | true =>
      rw [hx] at h1
      simp at h1

theorem no_running_owned (sR : Option Nat) (ss : List (Nat × List Bool))
    (h : anyRunningTrack ss = false) : ownedRunning sR ss = true := by
  induction ss with
  | nil => rfl
  | cons p rest ih =>
    simp only [anyRunningTrack, List.any_cons, Bool.or_eq_false_iff] at h ih
    simp only [ownedRunning, List.all_cons, Bool.and_eq_true]
    exact ⟨by simp [h.1], ih h.2⟩

theorem owned_stop_no_running (i : Nat) (ss : List (Nat × List Bool))
    (h : ownedRunning (some i) ss = true) :
    anyRunningTrack (stopStream i ss) = false := by
  induction ss with
  | nil => rfl
  | cons p rest ih =>
    obtain ⟨k, tsk⟩ := p
    simp only [ownedRunning, List.all_cons, Bool.and_eq_true] at h ih
    by_cases hk : k = i
    · subst hk
      have h1 : stopStream k ((k, tsk) :: rest) =
          (k, tsk.map fun _ => false) :: stopStream k rest := by
        simp [stopStream]
      rw [h1]
      simp only [anyRunningTrack, List.any_cons, Bool.or_eq_false_iff]
      refine ⟨?_, ih h.2⟩
      simp
    · have h1 : stopStream i ((k, tsk) :: rest) = (k, tsk) :: stopStream i rest := by
        simp [stopStream, hk]
      rw [h1]
      simp only [anyRunningTrack, List.any_cons, Bool.or_eq_false_iff]
      refine ⟨?_, ih h.2⟩
      have h2 := h.1
      have hbeq : (i == k) = false := beq_eq_false_iff_ne.mpr (Ne.symm hk)
      have hred : ((some i : Option Nat) == some k) = (i == k) := rfl
      rw [hred, hbeq] at h2
      simpa using h2

theorem owned_append_new (j : Nat) (ts : List Bool) (ss : List (Nat × List Bool))
    (h : anyRunningTrack ss = false) :
    ownedRunning (some j) (ss ++ [(j, ts)]) = true := by
  induction ss with
  | nil => simp [ownedRunning]
  | cons p rest ih =>
    simp only [anyRunningTrack, List.any_cons, Bool.or_eq_false_iff] at h ih
    simp only [List.cons_append, ownedRunning, List.all_cons, Bool.and_eq_true]
    refine ⟨by simp [h.1], ih h.2⟩

theorem inv_scan {c : Comp} (h : Inv c) (hm : c.mounted = true) (hi : c.appState = .Idle)
    (hp : c.pendingCamera = 0) : Inv (runEffects (requestCameraPermission c)) := by
  have hsr : c.streamRef = none := streamRef_none_of_ne h.sr (by rw [hi]; intro hx; cases hx)
  have hcl : cropLive c = false := cropLive_false_of_ne h.cl (by rw [hi]; intro hx; cases hx)
  have hpf : c.pendingFetch = false := pendingFetch_false_of_ne h.pf (by rw [hi]; intro hx; cases hx)
  have hpb : c.pendingBlob = false := pendingBlob_false_of_ne h.pb (by rw [hi]; intro hx; cases hx)
  have hld := h.ld hm
  have hown := h.own hm
  rw [hsr] at hown
  have hx : requestCameraPermission c =
      { c with videoSrcObject := none, pendingCamera := c.pendingCamera + 1 } := by
    unfold requestCameraPermission cleanupCamera
    simp [hsr, hm]
  have hstable :
      runEffects { c with videoSrcObject := none, pendingCamera := c.pendingCamera + 1 } =
      { c with videoSrcObject := none, pendingCamera := c.pendingCamera + 1 } :=
    runEffects_stable (by simp [depsOf, hld])
  rw [hx, hstable]
  constructor <;> simp_all [cropLive, depsOf]

end VisionFen

namespace VisionFen

theorem destroy_destroy (x : Option CropperInst) :
    destroyCropper (destroyCropper x) = destroyCropper x := by
  cases x <;> rfl

theorem cropLiveOpt_live : cropLiveOpt (some ⟨false⟩) = true := rfl

theorem cropLiveOpt_dead : cropLiveOpt (some ⟨true⟩) = false := rfl

theorem cropLiveOpt_none : cropLiveOpt none = false := rfl

/-- Effect run when the dependencies changed but the post-handler state is not
`ImageCaptured`: the old Cropper is destroyed and the body is inert. -/
theorem runEffects_step_inert {X : Comp} (hm : X.mounted = true)
    (hne : ¬ depsOf X = X.lastDeps) (hia : ¬ X.appState = .ImageCaptured) :
    runEffects X = { X with lastDeps := depsOf X,
                            cropperRef := destroyCropper X.cropperRef } := by
  unfold runEffects
  rw [if_pos hm, runEffectsAux, if_neg hne]
  have hb : effectBody (effectCleanup { X with lastDeps := depsOf X }) =
      effectCleanup { X with lastDeps := depsOf X } := by
    unfold effectBody
    rw [if_neg]
    intro hx
    exact hia hx.1
  rw [hb]
  exact runEffectsAux_stable rfl 2

/-- Effect run when the dependencies changed, the post-handler state is
`ImageCaptured` over a stored frame, and Cropper.js is loaded: the old Cropper
is destroyed and a fresh live one is constructed. -/
theorem runEffects_step_create {X : Comp} (hm : X.mounted = true)
    (hne : ¬ depsOf X = X.lastDeps) (hia : X.appState = .ImageCaptured)
    (hiu : X.imageDataUrl ≠ none) (hl : X.cropperLoaded = true) :
    runEffects X = { X with lastDeps := depsOf X, cropperRef := some ⟨false⟩ } := by
  unfold runEffects
  rw [if_pos hm, runEffectsAux, if_neg hne]
  have hb : effectBody (effectCleanup { X with lastDeps := depsOf X }) =
      { X with lastDeps := depsOf X, cropperRef := some ⟨false⟩ } := by
    unfold effectBody effectCleanup
    rw [if_pos ⟨hia, hm, hiu⟩, if_pos hl]
  rw [hb]
  exact runEffectsAux_stable rfl 2

/-- Effect run when the dependencies changed, the post-handler state is
`ImageCaptured` over a stored frame, but Cropper.js is not loaded: the body
classifies `CropEngineUnavailable` and enters `Error` (no toast), after which
the re-fired effect is inert. -/
theorem runEffects_step_cropmissing {X : Comp} (hm : X.mounted = true)
    (hne : ¬ depsOf X = X.lastDeps) (hia : X.appState = .ImageCaptured)
    (hiu : X.imageDataUrl ≠ none) (hl : X.cropperLoaded = false) :
    runEffects X = { X with lastDeps := (.Error, X.imageDataUrl),
                            cropperRef := destroyCropper X.cropperRef,
                            error := some cropperMissingMsg,
                            appState := .Error } := by
  unfold runEffects
  rw [if_pos hm, runEffectsAux, if_neg hne]
  have hb : effectBody (effectCleanup { X with lastDeps := depsOf X }) =
      { X with lastDeps := depsOf X, cropperRef := destroyCropper X.cropperRef,
               error := some cropperMissingMsg, appState := .Error } := by
    unfold effectBody effectCleanup
    rw [if_pos ⟨hia, hm, hiu⟩, if_neg (by rw [hl]; exact Bool.false_ne_true)]
  rw [hb, runEffectsAux]
  rw [if_neg (by simp [depsOf, hia])]
  dsimp only [depsOf]
  have hb2 : effectBody (effectCleanup
      { X with lastDeps := (AppState.Error, X.imageDataUrl),
               cropperRef := destroyCropper X.cropperRef,
               error := some cropperMissingMsg, appState := .Error }) =
      { X with lastDeps := (AppState.Error, X.imageDataUrl),
               cropperRef := destroyCropper (destroyCropper X.cropperRef),
               error := some cropperMissingMsg, appState := .Error } := by
    unfold effectBody effectCleanup
    rw [if_neg]
    intro hx
    cases hx.1
  rw [hb2, runEffectsAux_stable rfl 1, destroy_destroy]

end VisionFen

namespace VisionFen

theorem pendingFetch_false_of_pc {c : Comp} (h : Inv c) (hp : ¬ c.pendingCamera = 0) :
    c.pendingFetch = false := by
  cases hx : c.pendingFetch with
  | false => rfl
  | true => exact absurd (h.pf hx).2.2.2.2.1 hp

theorem pendingBlob_false_of_pc {c : Comp} (h : Inv c) (hp : ¬ c.pendingCamera = 0) :
    c.pendingBlob = false := by
  cases hx : c.pendingBlob with
  | false => rfl
  | true => exact absurd (h.pb hx).2.2.2.1 hp

theorem appState_ne_cameraOpen_of_pc {c : Comp} (h : Inv c) (hp : ¬ c.pendingCamera = 0) :
    ¬ c.appState = .CameraOpen := fun heq => hp (h.co heq)

theorem inv_grant {c : Comp} (n : Nat) (h : Inv c) (hp : ¬ c.pendingCamera = 0) :
    Inv (runEffects (onCameraGranted n c)) := by
  have hsr := (h.pc hp).1
  have hcl := (h.pc hp).2
  have hpf := pendingFetch_false_of_pc h hp
  have hpb := pendingBlob_false_of_pc h hp
  have hco := appState_ne_cameraOpen_of_pc h hp
  have hp1 : c.pendingCamera = 1 :=
    Nat.le_antisymm h.pcle (Nat.one_le_iff_ne_zero.mpr hp)
  have hown := h.own
  have hld := h.ld
  clear h hp
  obtain ⟨aS, iDU, fen0, err0, hCP, sR, vSO, ss, nid, crR, loaded, mtd, pC, pB, pF, ldep, ts, rq⟩ := c
  dsimp only at hp1 hsr hcl hpf hpb hco hown hld
  dsimp only [cropLive] at hcl
  subst hp1 hsr hpf hpb
  cases mtd with
  | false =>
    have hX : runEffects (onCameraGranted n
        ⟨aS, iDU, fen0, err0, hCP, none, vSO, ss, nid, crR, loaded, false, 1, false, false, ldep, ts, rq⟩) =
        onCameraGranted n
        ⟨aS, iDU, fen0, err0, hCP, none, vSO, ss, nid, crR, loaded, false, 1, false, false, ldep, ts, rq⟩ := by
      apply runEffects_unmounted
      simp [onCameraGranted]
    rw [hX]
    constructor <;> simp_all [onCameraGranted, cropLive, depsOf]
  | true =>
    have hld' := hld rfl
    dsimp only [depsOf] at hld'
    subst hld'
    have hrun : anyRunningTrack ss = false := owned_none_no_running ss (hown rfl)
    have hnew := owned_append_new nid (List.replicate n true) ss hrun
    have hco' : ¬ AppState.CameraOpen = aS := fun hx => hco hx.symm
    constructor <;>
      simp_all [onCameraGranted, runEffects, runEffectsAux, effectCleanup, effectBody,
        depsOf, cropLive, cropLiveOpt_destroy, hco']

theorem inv_deny {c : Comp} (h : Inv c) (hp : ¬ c.pendingCamera = 0) :
    Inv (runEffects (onCameraDenied c)) := by
  have hsr := (h.pc hp).1
  have hcl := (h.pc hp).2
  have hpf := pendingFetch_false_of_pc h hp
  have hpb := pendingBlob_false_of_pc h hp
  have hp1 : c.pendingCamera = 1 :=
    Nat.le_antisymm h.pcle (Nat.one_le_iff_ne_zero.mpr hp)
  have hown := h.own
  have hld := h.ld
  clear h hp
  obtain ⟨aS, iDU, fen0, err0, hCP, sR, vSO, ss, nid, crR, loaded, mtd, pC, pB, pF, ldep, ts, rq⟩ := c
  dsimp only at hp1 hsr hcl hpf hpb hown hld
  dsimp only [cropLive] at hcl
  subst hp1 hsr hpf hpb
  cases mtd with
  | false =>
    have hX : runEffects (onCameraDenied
        ⟨aS, iDU, fen0, err0, hCP, none, vSO, ss, nid, crR, loaded, false, 1, false, false, ldep, ts, rq⟩) =
        onCameraDenied
        ⟨aS, iDU, fen0, err0, hCP, none, vSO, ss, nid, crR, loaded, false, 1, false, false, ldep, ts, rq⟩ := by
      apply runEffects_unmounted
      simp [onCameraDenied]
    rw [hX]
    constructor <;> simp_all [onCameraDenied, cropLive, depsOf]
  | true =>
    have hld' := hld rfl
    dsimp only [depsOf] at hld'
    subst hld'
    have hownN := hown rfl
    by_cases herr : aS = AppState.Error
    · subst herr
      constructor <;>
        simp_all [onCameraDenied, runEffects, runEffectsAux, effectCleanup, effectBody,
          depsOf, cropLive, cropLiveOpt_destroy]
    · have herr' : ¬ AppState.Error = aS := fun hx => herr hx.symm
      constructor <;>
        simp_all [onCameraDenied, runEffects, runEffectsAux, effectCleanup, effectBody,
          depsOf, cropLive, cropLiveOpt_destroy, herr']

theorem inv_capture {c : Comp} (h : Inv c) (hm : c.mounted = true)
    (hcam : c.appState = .CameraOpen) : Inv (runEffects (handleCapture c)) := by
  have hpc := h.co hcam
  have hpf := pendingFetch_false_of_ne h.pf (by rw [hcam]; intro hx; cases hx)
  have hpb := pendingBlob_false_of_ne h.pb (by rw [hcam]; intro hx; cases hx)
  have hcl := cropLive_false_of_ne h.cl (by rw [hcam]; intro hx; cases hx)
  have hown := h.own
  have hld := h.ld
  clear h
  obtain ⟨aS, iDU, fen0, err0, hCP, sR, vSO, ss, nid, crR, loaded, mtd, pC, pB, pF, ldep, ts, rq⟩ := c
  dsimp only at hm hcam hpc hpf hpb hcl hown hld
  dsimp only [cropLive] at hcl
  subst hm hcam hpc hpf hpb
  have hld' := hld rfl
  dsimp only [depsOf] at hld'
  subst hld'
  cases sR with
  | none =>
    have hownN := hown rfl
    have hrun : anyRunningTrack ss = false := owned_none_no_running ss hownN
    cases loaded <;>
      (constructor <;>
        simp_all [handleCapture, cleanupCamera, stopStream, runEffects, runEffectsAux,
          effectCleanup, effectBody, depsOf, cropLive, cropLiveOpt_live, cropLiveOpt_dead,
          cropLiveOpt_none, cropLiveOpt_destroy, destroy_destroy])
  | some i =>
    have h1 : anyRunningTrack (stopStream i ss) = false :=
      owned_stop_no_running i ss (hown rfl)
    have h2 : ownedRunning none (stopStream i ss) = true :=
      no_running_owned none (stopStream i ss) h1
    cases loaded <;>
      (constructor <;>
        simp_all [handleCapture, cleanupCamera, stopStream, runEffects, runEffectsAux,
          effectCleanup, effectBody, depsOf, cropLive, cropLiveOpt_live, cropLiveOpt_dead,
          cropLiveOpt_none, cropLiveOpt_destroy, destroy_destroy])

set_option maxHeartbeats 1000000 in
theorem inv_reset {c : Comp} (h : Inv c) (hm : c.mounted = true)
    (hst : c.appState = .CameraOpen ∨ c.appState = .FenReceived ∨ c.appState = .Error) :
    Inv (runEffects (handleReset c)) := by
  have hne : ¬ c.appState = .Loading := by
    obtain hst | hst | hst := hst <;> rw [hst] <;> (intro hx; cases hx)
  have hpf := pendingFetch_false_of_ne h.pf hne
  have hpb := pendingBlob_false_of_ne h.pb hne
  have hpcle := h.pcle
  have hown := h.own
  have hld := h.ld
  clear h
  obtain ⟨aS, iDU, fen0, err0, hCP, sR, vSO, ss, nid, crR, loaded, mtd, pC, pB, pF, ldep, ts, rq⟩ := c
  dsimp only at hm hpf hpb hpcle hown hld hst
  subst hm hpf hpb
  have hld' := hld rfl
  dsimp only [depsOf] at hld'
  subst hld'
  cases sR with
  | none =>
    have hownN := hown rfl
    have hrun : anyRunningTrack ss = false := owned_none_no_running ss hownN
    obtain hst | hst | hst := hst <;> subst hst <;>
      (constructor <;>
        simp_all [handleReset, cleanupCamera, stopStream, runEffects, runEffectsAux,
          effectCleanup, effectBody, depsOf, cropLive, cropLiveOpt_destroy, destroy_destroy])
  | some i =>
    have h1 : anyRunningTrack (stopStream i ss) = false :=
      owned_stop_no_running i ss (hown rfl)
    have h2 : ownedRunning none (stopStream i ss) = true :=
      no_running_owned none (stopStream i ss) h1
    obtain hst | hst | hst := hst <;> subst hst <;>
      (constructor <;>
        simp_all [handleReset, cleanupCamera, stopStream, runEffects, runEffectsAux,
          effectCleanup, effectBody, depsOf, cropLive, cropLiveOpt_destroy, destroy_destroy])

set_option maxHeartbeats 1000000 in
theorem inv_retake {c : Comp} (h : Inv c) (hm : c.mounted = true)
    (hic : c.appState = .ImageCaptured) (hp : c.pendingCamera = 0) :
    Inv (runEffects (handleRetake c)) := by
  have hsr : c.streamRef = none :=
    streamRef_none_of_ne h.sr (by rw [hic]; intro hx; cases hx)
  have hpf := pendingFetch_false_of_ne h.pf (by rw [hic]; intro hx; cases hx)
  have hpb := pendingBlob_false_of_ne h.pb (by rw [hic]; intro hx; cases hx)
  have hcl := h.cl
  have hown := h.own
  have hld := h.ld
  clear h
  obtain ⟨aS, iDU, fen0, err0, hCP, sR, vSO, ss, nid, crR, loaded, mtd, pC, pB, pF, ldep, ts, rq⟩ := c
  dsimp only at hm hic hp hsr hpf hpb hcl hown hld
  dsimp only [cropLive] at hcl
  subst hm hic hp hsr hpf hpb
  have hld' := hld rfl
  dsimp only [depsOf] at hld'
  subst hld'
  have hownN := hown rfl
  by_cases hiu : iDU = none
  · subst hiu
    constructor <;>
      simp_all [handleRetake, requestCameraPermission, cleanupCamera, runEffects,
        runEffectsAux, effectCleanup, effectBody, depsOf, cropLive, cropLiveOpt_destroy]
  · obtain ⟨u, hu⟩ := Option.ne_none_iff_exists'.mp hiu
    subst hu
    constructor <;>
      simp_all [handleRetake, requestCameraPermission, cleanupCamera, runEffects,
        runEffectsAux, effectCleanup, effectBody, depsOf, cropLive, cropLiveOpt_destroy,
        destroy_destroy]

set_option maxHeartbeats 1000000 in
theorem inv_submit {c : Comp} (h : Inv c) (hm : c.mounted = true)
    (hic : c.appState = .ImageCaptured) (hcr : c.cropperRef ≠ none) :
    Inv (runEffects (handleSubmit c)) := by
  have hsr : c.streamRef = none :=
    streamRef_none_of_ne h.sr (by rw [hic]; intro hx; cases hx)
  have hpf := pendingFetch_false_of_ne h.pf (by rw [hic]; intro hx; cases hx)
  have hpb := pendingBlob_false_of_ne h.pb (by rw [hic]; intro hx; cases hx)
  have hpc := h.pc
  have hpcle := h.pcle
  have hown := h.own
  have hld := h.ld
  clear h
  obtain ⟨aS, iDU, fen0, err0, hCP, sR, vSO, ss, nid, crR, loaded, mtd, pC, pB, pF, ldep, ts, rq⟩ := c
  dsimp only at hm hic hsr hpf hpb hpc hpcle hown hld hcr
  dsimp only [cropLive] at hpc
  subst hm hic hsr hpf hpb
  have hld' := hld rfl
  dsimp only [depsOf] at hld'
  subst hld'
  have hownN := hown rfl
  have hrun : anyRunningTrack ss = false := owned_none_no_running ss hownN
  cases crR with
  | none => exact absurd rfl hcr
  | some cr =>
    obtain ⟨d⟩ := cr
    clear hcr
    cases d <;> cases pC <;>
      (constructor <;>
        simp_all [handleSubmit, runEffects, runEffectsAux, effectCleanup, effectBody,
          depsOf, cropLive, cropLiveOpt_live, cropLiveOpt_dead, cropLiveOpt_none,
          cropLiveOpt_destroy, destroy_destroy])

set_option maxHeartbeats 1000000 in
theorem inv_blob {c : Comp} (ok : Bool) (h : Inv c) (hpb : c.pendingBlob = true) :
    Inv (runEffects (onBlobReady ok c)) := by
  have haS := (h.pb hpb).1
  have hsr := (h.pb hpb).2.1
  have hcl := (h.pb hpb).2.2.1
  have hpc := (h.pb hpb).2.2.2.1
  have hrun := (h.pb hpb).2.2.2.2
  have hpf : c.pendingFetch = false := by
    cases hx : c.pendingFetch with
    | false => rfl
    | true => rw [(h.pf hx).2.2.2.1] at hpb; cases hpb
  have hown := h.own
  have hld := h.ld
  clear h
  obtain ⟨aS, iDU, fen0, err0, hCP, sR, vSO, ss, nid, crR, loaded, mtd, pC, pB, pF, ldep, ts, rq⟩ := c
  dsimp only at hpb haS hsr hcl hpc hrun hpf hown hld
  dsimp only [cropLive] at hcl
  subst hpb haS hsr hpc hpf
  cases mtd with
  | false =>
    have hX : runEffects (onBlobReady ok
        ⟨.Loading, iDU, fen0, err0, hCP, none, vSO, ss, nid, crR, loaded, false, 0, true, false, ldep, ts, rq⟩) =
        onBlobReady ok
        ⟨.Loading, iDU, fen0, err0, hCP, none, vSO, ss, nid, crR, loaded, false, 0, true, false, ldep, ts, rq⟩ := by
      apply runEffects_unmounted
      cases ok <;> simp [onBlobReady]
    rw [hX]
    cases ok <;> (constructor <;> simp_all [onBlobReady, cropLive, depsOf])
  | true =>
    have hld' := hld rfl
    dsimp only [depsOf] at hld'
    subst hld'
    have hownN := hown rfl
    cases ok <;>
      (constructor <;>
        simp_all [onBlobReady, runEffects, runEffectsAux, effectCleanup, effectBody,
          depsOf, cropLive, cropLiveOpt_destroy])

set_option maxHeartbeats 1000000 in
theorem inv_fetchResolve {c : Comp} (status : Nat) (body : Option JValue) (h : Inv c)
    (hpf : c.pendingFetch = true) : Inv (runEffects (onFetchResolved status body c)) := by
  have haS := (h.pf hpf).1
  have hsr := (h.pf hpf).2.1
  have hcl := (h.pf hpf).2.2.1
  have hpb := (h.pf hpf).2.2.2.1
  have hpc := (h.pf hpf).2.2.2.2.1
  have hrun := (h.pf hpf).2.2.2.2.2
  have hown := h.own
  have hld := h.ld
  clear h
  obtain ⟨aS, iDU, fen0, err0, hCP, sR, vSO, ss, nid, crR, loaded, mtd, pC, pB, pF, ldep, ts, rq⟩ := c
  dsimp only at hpf haS hsr hcl hpb hpc hrun hown hld
  dsimp only [cropLive] at hcl
  subst hpf haS hsr hpb hpc
  cases hcls : classifyResponse status body with
  | ok v =>
    cases mtd with
    | false =>
      have hX : runEffects (onFetchResolved status body
          ⟨.Loading, iDU, fen0, err0, hCP, none, vSO, ss, nid, crR, loaded, false, 0, false, true, ldep, ts, rq⟩) =
          onFetchResolved status body
          ⟨.Loading, iDU, fen0, err0, hCP, none, vSO, ss, nid, crR, loaded, false, 0, false, true, ldep, ts, rq⟩ := by
        apply runEffects_unmounted
        simp [onFetchResolved, hcls]
      rw [hX]
      constructor <;> simp_all [onFetchResolved, hcls, cropLive, depsOf]
    | true =>
      have hld' := hld rfl
      dsimp only [depsOf] at hld'
      subst hld'
      have hownN := hown rfl
      constructor <;>
        simp_all [onFetchResolved, hcls, runEffects, runEffectsAux, effectCleanup,
          effectBody, depsOf, cropLive, cropLiveOpt_destroy]
  | error k =>
    cases mtd with
    | false =>
      have hX : runEffects (onFetchResolved status body
          ⟨.Loading, iDU, fen0, err0, hCP, none, vSO, ss, nid, crR, loaded, false, 0, false, true, ldep, ts, rq⟩) =
          onFetchResolved status body
          ⟨.Loading, iDU, fen0, err0, hCP, none, vSO, ss, nid, crR, loaded, false, 0, false, true, ldep, ts, rq⟩ := by
        apply runEffects_unmounted
        simp [onFetchResolved, hcls]
      rw [hX]
      constructor <;> simp_all [onFetchResolved, hcls, cropLive, depsOf]
    | true =>
      have hld' := hld rfl
      dsimp only [depsOf] at hld'
      subst hld'
      have hownN := hown rfl
      constructor <;>
        simp_all [onFetchResolved, hcls, runEffects, runEffectsAux, effectCleanup,
          effectBody, depsOf, cropLive, cropLiveOpt_destroy]

set_option maxHeartbeats 1000000 in
theorem inv_fetchReject {c : Comp} (h : Inv c) (hpf : c.pendingFetch = true) :
    Inv (runEffects (onFetchRejected c)) := by
  have haS := (h.pf hpf).1
  have hsr := (h.pf hpf).2.1
  have hcl := (h.pf hpf).2.2.1
  have hpb := (h.pf hpf).2.2.2.1
  have hpc := (h.pf hpf).2.2.2.2.1
  have hrun := (h.pf hpf).2.2.2.2.2
  have hown := h.own
  have hld := h.ld
  clear h
  obtain ⟨aS, iDU, fen0, err0, hCP, sR, vSO, ss, nid, crR, loaded, mtd, pC, pB, pF, ldep, ts, rq⟩ := c
  dsimp only at hpf haS hsr hcl hpb hpc hrun hown hld
  dsimp only [cropLive] at hcl
  subst hpf haS hsr hpb hpc
  cases mtd with
  | false =>
    have hX : runEffects (onFetchRejected
        ⟨.Loading, iDU, fen0, err0, hCP, none, vSO, ss, nid, crR, loaded, false, 0, false, true, ldep, ts, rq⟩) =
        onFetchRejected
        ⟨.Loading, iDU, fen0, err0, hCP, none, vSO, ss, nid, crR, loaded, false, 0, false, true, ldep, ts, rq⟩ := by
      apply runEffects_unmounted
      simp [onFetchRejected]
    rw [hX]
    constructor <;> simp_all [onFetchRejected, cropLive, depsOf]
  | true =>
    have hld' := hld rfl
    dsimp only [depsOf] at hld'
    subst hld'
    have hownN := hown rfl
    constructor <;>
      simp_all [onFetchRejected, runEffects, runEffectsAux, effectCleanup, effectBody,
        depsOf, cropLive, cropLiveOpt_destroy]

theorem inv_unmount {c : Comp} (h : Inv c) :
    Inv { effectCleanup c with mounted := false } := by
  have hpf := h.pf
  have hpb := h.pb
  have hpc := h.pc
  have hpcle := h.pcle
  have hcl := h.cl
  have hsr := h.sr
  have hco := h.co
  clear h
  obtain ⟨aS, iDU, fen0, err0, hCP, sR, vSO, ss, nid, crR, loaded, mtd, pC, pB, pF, ldep, ts, rq⟩ := c
  dsimp only at hpf hpb hpc hpcle hcl hsr hco
  dsimp only [cropLive] at hpf hpb hpc hcl
  constructor <;>
    simp_all [effectCleanup, cropLive, cropLiveOpt_destroy, depsOf]

end VisionFen

namespace VisionFen

/-- One-step preservation of the inductive invariant along overlap-free
events. -/
theorem inv_step {c c' : Comp} (e : Event) (h : Inv c) (hof : overlapFree c e = true)
    (hs : stepE c e = some c') : Inv c' := by
  cases e with
  | scanClick =>
    have hp : c.pendingCamera = 0 := by simpa [overlapFree] using hof
    simp only [stepE] at hs
    split at hs
    · next hcond =>
      injection hs with hh
      subst hh
      exact inv_scan h hcond.1 hcond.2 hp
    · cases hs
  | cameraGrant n =>
    simp only [stepE] at hs
    split at hs
    · next hcond =>
      injection hs with hh
      subst hh
      exact inv_grant n h hcond
    · cases hs
  | cameraDeny =>
    simp only [stepE] at hs
    split at hs
    · next hcond =>
      injection hs with hh
      subst hh
      exact inv_deny h hcond
    · cases hs
  | captureClick =>
    simp only [stepE] at hs
    split at hs
    · next hcond =>
      injection hs with hh
      subst hh
      exact inv_capture h hcond.1 hcond.2
    · cases hs
  | resetClick =>
    simp only [stepE] at hs
    split at hs
    · next hcond =>
      injection hs with hh
      subst hh
      exact inv_reset h hcond.1 hcond.2
    · cases hs
  | retakeClick =>
    have hp : c.pendingCamera = 0 := by simpa [overlapFree] using hof
    simp only [stepE] at hs
    split at hs
    · next hcond =>
      injection hs with hh
      subst hh
      exact inv_retake h hcond.1 hcond.2 hp
    · cases hs
  | submitClick =>
    simp only [stepE] at hs
    split at hs
    · next hcond =>
      injection hs with hh
      subst hh
      exact inv_submit h hcond.1 hcond.2.1 hcond.2.2
    · cases hs
  | blobReady ok =>
    simp only [stepE] at hs
    split at hs
    · next hcond =>
      injection hs with hh
      subst hh
      exact inv_blob ok h hcond
    · cases hs
  | fetchResolve status body =>
    simp only [stepE] at hs
    split at hs
    · next hcond =>
      injection hs with hh
      subst hh
      exact inv_fetchResolve status body h hcond
    · cases hs
  | fetchReject =>
    simp only [stepE] at hs
    split at hs
    · next hcond =>
      injection hs with hh
      subst hh
      exact inv_fetchReject h hcond
    · cases hs
  | unmount =>
    simp only [stepE] at hs
    split at hs
    · next hcond =>
      injection hs with hh
      subst hh
      exact inv_unmount h
    · cases hs

/-- Every state reachable by an overlap-free trace satisfies the inductive
invariant. -/
theorem reachable_inv {c : Comp} (h : ReachableNoOverlap c) : Inv c := by
  induction h with
  | init loaded =>
    constructor <;> simp [initComp, cropLive, cropLiveOpt_none, depsOf, ownedRunning]
  | step e hr hof hs ih => exact inv_step e ih hof hs

end VisionFen

namespace VisionFen

theorem lookup_stopStream (i : Nat) (ss : List (Nat × List Bool)) :
    (stopStream i ss).lookup i = (ss.lookup i).map fun ts => ts.map fun _ => false := by
  induction ss with
  | nil => rfl
  | cons p rest ih =>
    obtain ⟨j, ts⟩ := p
    by_cases hj : j = i
    · subst hj
      have h1 : stopStream j ((j, ts) :: rest) =
          (j, ts.map fun _ => false) :: stopStream j rest := by
        simp [stopStream]
      rw [h1]
      simp [List.lookup]
    · have h1 : stopStream i ((j, ts) :: rest) = (j, ts) :: stopStream i rest := by
        simp [stopStream, hj]
      rw [h1]
      have hne : (i == j) = false := beq_eq_false_iff_ne.mpr (Ne.symm hj)
      simp [List.lookup, hne, ih]

theorem all_false_map (ts : List Bool) :
    (ts.map fun _ => false).all (fun t => t = false) = true := by
  induction ts <;> simp_all

/-- The effect never touches the listed fields. -/
theorem runEffects_fields (c : Comp) :
    (runEffects c).imageDataUrl = c.imageDataUrl ∧ (runEffects c).fen = c.fen ∧
    (runEffects c).hasCameraPermission = c.hasCameraPermission ∧
    (runEffects c).streamRef = c.streamRef ∧
    (runEffects c).videoSrcObject = c.videoSrcObject ∧
    (runEffects c).streams = c.streams ∧
    (runEffects c).nextStreamId = c.nextStreamId ∧
    (runEffects c).cropperLoaded = c.cropperLoaded ∧
    (runEffects c).mounted = c.mounted ∧
    (runEffects c).pendingCamera = c.pendingCamera ∧
    (runEffects c).pendingBlob = c.pendingBlob ∧
    (runEffects c).pendingFetch = c.pendingFetch ∧
    (runEffects c).toasts = c.toasts ∧
    (runEffects c).requests = c.requests := by
  have hq := quiet_runEffects c
  simp only [quiet, Prod.mk.injEq] at hq
  exact hq

theorem runEffects_requests (c : Comp) : (runEffects c).requests = c.requests :=
  (runEffects_fields c).2.2.2.2.2.2.2.2.2.2.2.2.2

theorem runEffects_toasts (c : Comp) : (runEffects c).toasts = c.toasts :=
  (runEffects_fields c).2.2.2.2.2.2.2.2.2.2.2.2.1

theorem runEffects_mounted (c : Comp) : (runEffects c).mounted = c.mounted :=
  (runEffects_fields c).2.2.2.2.2.2.2.2.1

end VisionFen

namespace VisionFen

/-- Claim C1 (code bug): the submission continuation performs no
epoch/staleness check.  Concretely: reset the machine while a `fetch` is in
flight (`handleReset` does not cancel it), so the state has moved back to
`Idle` with the stored FEN cleared; when the late response `200 {"fen": …}`
then arrives, the continuation is applied to the stale state and mutates it —
the machine jumps to `FenReceived` and stores the FEN, instead of detecting
the stale epoch and discarding the result as the claim requires. -/
theorem c1_stale_response_applied :
    compResetDuringFetch.appState = .Idle ∧
    compResetDuringFetch.fen = none ∧
    compResetDuringFetch.pendingFetch = true ∧
    (stepE compResetDuringFetch (.fetchResolve 200 (some fenBody))).map
        (fun c => (c.appState, c.fen)) =
      some (.FenReceived, some (.jstr fenExample)) :=
  ⟨rfl, rfl, rfl, rfl⟩

/-- Claim C3 (code bug): component teardown while in `CameraOpen` does not
release the camera.  After `scan → grant → unmount`, the effect cleanup has
only destroyed the (non-existent) Cropper; the media-stream tracks are still
running and `streamRef` still holds the stream — the departed state's
resource was never released. -/
theorem c3_unmount_leaves_camera_running :
    (runTrace true [.scanClick, .cameraGrant 1, .unmount]).map
        (fun c => (c.appState, c.mounted, c.streamRef, anyRunningTrack c.streams)) =
      some (.CameraOpen, false, some 0, true) :=
  rfl

/-- Claim C4 counterexample: the source checks `if (result.fen)` —
JavaScript truthiness — not "non-empty string".  Status 200 with body
`{"fen": 42}` lacks a non-empty *string* field `fen`, so the claim requires
`Failed(InvalidServerResponse)`; the code instead stores `42` and completes. -/
theorem c4_counterexample :
    (stepE compSubmitting (.fetchResolve 200 (some (.jobj [("fen", .jnum 42)])))).map
        (fun c => (c.appState, c.fen)) =
      some (.FenReceived, some (.jnum 42)) :=
  rfl

/-- Claim C8 counterexample: entering `Failed(CropEngineUnavailable)` (scan →
grant → capture with Cropper.js not loaded) shows the persistent error view
but fires zero toasts, where the claim requires exactly one transient
notification for every error kind. -/
theorem c8_counterexample :
    (runTrace false [.scanClick, .cameraGrant 1, .captureClick]).map
        (fun c => (c.appState, c.error, c.toasts)) =
      some (.Error, some cropperMissingMsg, 0) :=
  rfl

theorem not_mem_getD_map_replicate (i : Nat) (ss : List (Nat × List Bool)) :
    true ∉ (Option.map (fun ts : List Bool => List.replicate ts.length false)
      (List.lookup i ss)).getD [] := by
  cases List.lookup i ss <;> simp [List.mem_replicate]

/-- Claim C6: `cleanupCamera` (the spec's `release`) is idempotent and total:
calling it twice equals calling it once, it leaves no owned stream
(`streamRef = none`), it detaches the video surface (while one exists, i.e.
mounted), and every track of the stream it released is stopped.  On a
null/already-released session it is a no-op on the stream world. -/
theorem c6_release_idempotent (c : Comp) :
    cleanupCamera (cleanupCamera c) = cleanupCamera c ∧
    (cleanupCamera c).streamRef = none ∧
    (c.mounted = true → (cleanupCamera c).videoSrcObject = none) ∧
    (∀ i, c.streamRef = some i → streamStopped (cleanupCamera c).streams i = true) := by
  obtain ⟨aS, iDU, fen0, err0, hCP, sR, vSO, ss, nid, crR, loaded, mtd, pC, pB, pF, ldep, ts, rq⟩ := c
  cases sR <;> cases mtd <;>
    refine ⟨?_, ?_, ?_, ?_⟩ <;>
      simp_all [cleanupCamera, streamStopped, streamTracks, lookup_stopStream,
        all_false_map, not_mem_getD_map_replicate]

end VisionFen

namespace VisionFen

/-- Claim C5: a 2xx response whose JSON body carries a non-empty string field
`fen` drives the machine from `Submitting` (`Loading`) to `Completed`
(`FenReceived`) holding exactly that string. -/
theorem c5_valid_fen_completes (c : Comp) (st : Nat) (b : JValue) (s : String)
    (hm : c.mounted = true) (hstate : c.appState = .Loading)
    (hpf : c.pendingFetch = true) (hok : okStatus st = true)
    (hf : fenField b = some (.jstr s)) (hs : ¬ s = "") :
    (runEffects (onFetchResolved st (some b) c)).appState = .FenReceived ∧
    (runEffects (onFetchResolved st (some b) c)).fen = some (JPrim.jstr s) := by
  have hcls : classifyResponse st (some b) = .ok (.jstr s) := by
    simp [classifyResponse, hok, hf, JPrim.truthy, hs]
  have hX : onFetchResolved st (some b) c =
      { c with pendingFetch := false, fen := some (.jstr s),
               appState := .FenReceived, imageDataUrl := none } := by
    simp [onFetchResolved, hcls, hm]
  rw [hX]
  by_cases hdep : ((AppState.FenReceived, none) : AppState × Option String) = c.lastDeps <;>
    constructor <;>
      simp_all [runEffects, runEffectsAux, effectCleanup, effectBody, depsOf]

/-- Claim C4, amended: a non-2xx status classifies as `NetworkFailure` (the
status-error throw site); a 2xx response whose body lacks a **truthy** `fen`
field — rather than the claim's "non-empty string" — classifies as
`InvalidServerResponse` (the invalid-response throw site); either error kind
drives the machine to the `Error` state with the shared failure message; the
claim's two examples (status 500, and status 200 with `{"nofen": true}`)
behave as it states. -/
theorem c4_response_classification (st : Nat) (body : Option JValue) :
    (okStatus st = false → classifyResponse st body = .error .NetworkFailure) ∧
    (okStatus st = true → fenTruthy body = false →
      classifyResponse st body = .error .InvalidServerResponse) ∧
    (∀ c, c.mounted = true → ∀ k, classifyResponse st body = .error k →
      (runEffects (onFetchResolved st body c)).appState = .Error ∧
      (runEffects (onFetchResolved st body c)).error = some fetchErrorMsg) ∧
    classifyResponse 500 body = .error .NetworkFailure ∧
    classifyResponse 200 (some (.jobj [("nofen", .jbool true)])) =
      .error .InvalidServerResponse := by
  refine ⟨?_, ?_, ?_, ?_, ?_⟩
  · intro h
    simp [classifyResponse, h]
  · intro hok hft
    cases body with
    | none => simp [classifyResponse, hok]
    | some b =>
      simp only [fenTruthy] at hft
      cases hff : fenField b with
      | none => simp [classifyResponse, hok, hff]
      | some v =>
        rw [hff] at hft
        simp only [] at hft
        simp [classifyResponse, hok, hff, hft]
  · intro c hm k hcls
    have hX : onFetchResolved st body c =
        { c with pendingFetch := false, error := some fetchErrorMsg,
                 appState := .Error, toasts := c.toasts + 1, imageDataUrl := none } := by
      simp [onFetchResolved, hcls, hm]
    rw [hX]
    by_cases hdep : ((AppState.Error, none) : AppState × Option String) = c.lastDeps <;>
      constructor <;>
        simp_all [runEffects, runEffectsAux, effectCleanup, effectBody, depsOf]
  · simp [classifyResponse, okStatus]
  · rfl

/-- Claim C7: `finalize` (the `getCroppedCanvas({width: 512, height: 512,
imageSmoothingEnabled: true, imageSmoothingQuality: "high"}).toBlob(…,
"image/jpeg")` pipeline of `handleSubmit`) yields exactly one 512×512 JPEG
blob regardless of the source frame resolution, with high-quality resampling
requested; when rendering produces no data (`null` blob), the machine enters
`Error` with the image-encoding failure message. -/
theorem c7_finalize_normalized (fw fh : Nat) :
    finalizeCrop fw fh true = some { mime := "image/jpeg", width := 512, height := 512 } ∧
    finalizeCrop fw fh false = none ∧
    cropOpts.imageSmoothingEnabled = true ∧
    cropOpts.imageSmoothingQuality = "high" ∧
    (∀ c, c.mounted = true →
      (runEffects (onBlobReady false c)).appState = .Error ∧
      (runEffects (onBlobReady false c)).error = some encodingErrorMsg) := by
  refine ⟨rfl, rfl, rfl, rfl, ?_⟩
  intro c hm
  have hX : onBlobReady false c =
      { c with pendingBlob := false, error := some encodingErrorMsg,
               appState := .Error } := by
    simp [onBlobReady, hm]
  rw [hX]
  by_cases hdep : ((AppState.Error, c.imageDataUrl) : AppState × Option String) = c.lastDeps <;>
    constructor <;>
      simp_all [runEffects, runEffectsAux, effectCleanup, effectBody, depsOf]

end VisionFen

namespace VisionFen

theorem cleanupCamera_requests (c : Comp) : (cleanupCamera c).requests = c.requests := by
  obtain ⟨aS, iDU, fen0, err0, hCP, sR, vSO, ss, nid, crR, loaded, mtd, pC, pB, pF, ldep, ts, rq⟩ := c
  cases sR <;> cases mtd <;> rfl

theorem cleanupCamera_toasts (c : Comp) : (cleanupCamera c).toasts = c.toasts := by
  obtain ⟨aS, iDU, fen0, err0, hCP, sR, vSO, ss, nid, crR, loaded, mtd, pC, pB, pF, ldep, ts, rq⟩ := c
  cases sR <;> cases mtd <;> rfl

/-- Claim C9: the submission client builds the multipart request with the
single field name `file`, filename `chessboard.jpg` and MIME type
`image/jpeg` (the type given to `toBlob`), POSTs it to the fixed prediction
endpoint, and each machine step issues exactly one request when (and only
when) the `toBlob` callback of a submit delivers a blob — in particular the
response/rejection events issue none, so there is no retry. -/
theorem c9_submit_request :
    buildSubmitRequest "image/jpeg" =
      { url := "http://10.147.210.166:8000/predict", method := "POST",
        fieldName := "file", filename := "chessboard.jpg", mime := "image/jpeg" } ∧
    (∀ c c' (e : Event), stepE c e = some c' →
      c'.requests.length = c.requests.length +
        match e with
        | .blobReady true => 1
        | _ => 0) := by
  refine ⟨rfl, ?_⟩
  intro c c' e hs
  cases e with
  | scanClick =>
    simp only [stepE] at hs
    split at hs
    · injection hs with hh
      subst hh
      rw [runEffects_requests]
      simp [requestCameraPermission, cleanupCamera_requests]
    · cases hs
  | cameraGrant n =>
    simp only [stepE] at hs
    split at hs
    · injection hs with hh
      subst hh
      rw [runEffects_requests]
      by_cases hm : c.mounted = true <;> simp [onCameraGranted, hm]
    · cases hs
  | cameraDeny =>
    simp only [stepE] at hs
    split at hs
    · injection hs with hh
      subst hh
      rw [runEffects_requests]
      by_cases hm : c.mounted = true <;> simp [onCameraDenied, hm]
    · cases hs
  | captureClick =>
    simp only [stepE] at hs
    split at hs
    · injection hs with hh
      subst hh
      rw [runEffects_requests]
      by_cases hm : c.mounted = true <;> simp [handleCapture, hm, cleanupCamera_requests]
    · cases hs
  | resetClick =>
    simp only [stepE] at hs
    split at hs
    · injection hs with hh
      subst hh
      rw [runEffects_requests]
      simp [handleReset, cleanupCamera_requests]
    · cases hs
  | retakeClick =>
    simp only [stepE] at hs
    split at hs
    · injection hs with hh
      subst hh
      rw [runEffects_requests]
      simp [handleRetake, requestCameraPermission, cleanupCamera_requests]
    · cases hs
  | submitClick =>
    simp only [stepE] at hs
    split at hs
    · injection hs with hh
      subst hh
      rw [runEffects_requests]
      rcases hcr : c.cropperRef with _ | cr
      · simp [handleSubmit, hcr]
      · obtain ⟨d⟩ := cr
        cases d <;> simp [handleSubmit, hcr]
    · cases hs
  | blobReady ok =>
    simp only [stepE] at hs
    split at hs
    · injection hs with hh
      subst hh
      rw [runEffects_requests]
      cases ok with
      | true => simp [onBlobReady]
      | false => by_cases hm : c.mounted = true <;> simp [onBlobReady, hm]
    · cases hs
  | fetchResolve status body =>
    simp only [stepE] at hs
    split at hs
    · injection hs with hh
      subst hh
      rw [runEffects_requests]
      cases hcls : classifyResponse status body <;>
        by_cases hm : c.mounted = true <;> simp [onFetchResolved, hcls, hm]
    · cases hs
  | fetchReject =>
    simp only [stepE] at hs
    split at hs
    · injection hs with hh
      subst hh
      rw [runEffects_requests]
      by_cases hm : c.mounted = true <;> simp [onFetchRejected, hm]
    · cases hs
  | unmount =>
    simp only [stepE] at hs
    split at hs
    · injection hs with hh
      subst hh
      simp [effectCleanup]
    · cases hs

/-- Claim C10: `handleReset`, from any (mounted) state, restores the full
initial configuration: state `Idle`; FEN result, error message, captured
image data and camera-permission flag all cleared to `null`; the owned camera
stream stopped (every track) and detached from the video surface. -/
theorem c10_reset_restores_initial (c : Comp) (hm : c.mounted = true) :
    (runEffects (handleReset c)).appState = .Idle ∧
    (runEffects (handleReset c)).imageDataUrl = none ∧
    (runEffects (handleReset c)).fen = none ∧
    (runEffects (handleReset c)).error = none ∧
    (runEffects (handleReset c)).hasCameraPermission = none ∧
    (runEffects (handleReset c)).streamRef = none ∧
    (runEffects (handleReset c)).videoSrcObject = none ∧
    (∀ i, c.streamRef = some i →
      streamStopped (runEffects (handleReset c)).streams i = true) := by
  obtain ⟨aS, iDU, fen0, err0, hCP, sR, vSO, ss, nid, crR, loaded, mtd, pC, pB, pF, ldep, ts, rq⟩ := c
  dsimp only at hm
  subst hm
  cases sR <;>
    by_cases hdep : ((AppState.Idle, none) : AppState × Option String) = ldep <;>
      refine ⟨?_, ?_, ?_, ?_, ?_, ?_, ?_, ?_⟩ <;>
        simp_all [handleReset, cleanupCamera, runEffects, runEffectsAux,
          effectCleanup, effectBody, depsOf, streamStopped, streamTracks,
          lookup_stopStream, all_false_map, not_mem_getD_map_replicate]

end VisionFen

namespace VisionFen

/-- Claim C2, amended: in every state reachable from a fresh mount by a
trace that never starts a camera acquisition while one is still pending
(`ReachableNoOverlap`), the camera session (`camLive`: some acquired stream
still has a running track), a live (undestroyed) crop session (`cropLive`)
and an in-flight submission (`subLive`) are pairwise mutually exclusive, so
at most one of the three resources is ever live.  Over unrestricted traces
the property fails: the Scan and Retake buttons stay clickable while the
permission prompt is pending, and a second acquisition overwrites
`streamRef` without stopping the first stream (see the counterexample). -/
theorem c2_mutual_exclusion (c : Comp) (hr : ReachableNoOverlap c) :
    ¬(camLive c = true ∧ cropLive c = true) ∧
    ¬(camLive c = true ∧ subLive c = true) ∧
    ¬(cropLive c = true ∧ subLive c = true) := by
  have h := reachable_inv hr
  refine ⟨?_, ?_, ?_⟩
  · rintro ⟨h1, h2⟩
    have hsr := (h.cl h2).2.1
    have hmt := (h.cl h2).2.2.2
    have hown := h.own hmt
    rw [hsr] at hown
    have hx := owned_none_no_running c.streams hown
    simp only [camLive] at h1
    rw [hx] at h1
    cases h1
  · rintro ⟨h1, h2⟩
    simp only [subLive] at h2
    have hx := (h.pf h2).2.2.2.2.2
    simp only [camLive] at h1
    rw [hx] at h1
    cases h1
  · rintro ⟨h1, h2⟩
    simp only [subLive] at h2
    have hx := (h.pf h2).2.2.1
    rw [h1] at hx
    cases hx

/-- Witness for C2 at the concrete overlap-free reachable state
`Idle → scan → grant` (camera live, nothing else). -/
theorem c2_mutual_exclusion_witness :
    ¬(camLive compCam = true ∧ cropLive compCam = true) :=
  (c2_mutual_exclusion compCam
    (ReachableNoOverlap.step (.cameraGrant 1)
      (ReachableNoOverlap.step .scanClick (ReachableNoOverlap.init true) rfl rfl)
      rfl rfl)).1

/-- Counterexample to the unrestricted C2: clicking Scan again while the
first permission prompt is pending (the button stays rendered in `Idle`),
then letting both grants arrive and capturing, ends with a live crop session
while the stream of the first grant still has a running track — the second
grant overwrote `streamRef` without stopping the first stream, so the
`cleanupCamera` of the capture released only the second one, and the leaked running stream
is unowned (`streamRef` is `none`). -/
theorem c2_counterexample :
    (runTrace true [.scanClick, .scanClick, .cameraGrant 1, .cameraGrant 1,
        .captureClick]).map (fun c => (camLive c, cropLive c, c.streamRef)) =
      some (true, true, none) := rfl

end VisionFen

namespace VisionFen

theorem cleanupCamera_appState (c : Comp) : (cleanupCamera c).appState = c.appState := by
  obtain ⟨aS, iDU, fen0, err0, hCP, sR, vSO, ss, nid, crR, loaded, mtd, pC, pB, pF, ldep, ts, rq⟩ := c
  cases sR <;> cases mtd <;> rfl

theorem cleanupCamera_mounted (c : Comp) : (cleanupCamera c).mounted = c.mounted := by
  obtain ⟨aS, iDU, fen0, err0, hCP, sR, vSO, ss, nid, crR, loaded, mtd, pC, pB, pF, ldep, ts, rq⟩ := c
  cases sR <;> cases mtd <;> rfl

theorem cleanupCamera_error (c : Comp) : (cleanupCamera c).error = c.error := by
  obtain ⟨aS, iDU, fen0, err0, hCP, sR, vSO, ss, nid, crR, loaded, mtd, pC, pB, pF, ldep, ts, rq⟩ := c
  cases sR <;> cases mtd <;> rfl

theorem cleanupCamera_imageDataUrl (c : Comp) :
    (cleanupCamera c).imageDataUrl = c.imageDataUrl := by
  obtain ⟨aS, iDU, fen0, err0, hCP, sR, vSO, ss, nid, crR, loaded, mtd, pC, pB, pF, ldep, ts, rq⟩ := c
  cases sR <;> cases mtd <;> rfl

/-- One effect step changes `appState`/`error` only along the
Cropper-missing path. -/
theorem effectStep_outcome (c : Comp) :
    ((effectBody (effectCleanup { c with lastDeps := depsOf c })).appState = c.appState ∧
      (effectBody (effectCleanup { c with lastDeps := depsOf c })).error = c.error) ∨
    ((effectBody (effectCleanup { c with lastDeps := depsOf c })).appState = .Error ∧
      (effectBody (effectCleanup { c with lastDeps := depsOf c })).error =
        some cropperMissingMsg ∧
      c.appState = .ImageCaptured ∧ c.mounted = true ∧ c.imageDataUrl ≠ none ∧
      c.cropperLoaded = false) := by
  have hred : effectBody (effectCleanup { c with lastDeps := depsOf c }) =
      if c.appState = .ImageCaptured ∧ c.mounted = true ∧ c.imageDataUrl ≠ none then
        if c.cropperLoaded then
          { c with lastDeps := depsOf c, cropperRef := some ⟨false⟩ }
        else
          { c with lastDeps := depsOf c, cropperRef := destroyCropper c.cropperRef,
                   error := some cropperMissingMsg, appState := .Error }
      else { c with lastDeps := depsOf c, cropperRef := destroyCropper c.cropperRef } := rfl
  rw [hred]
  by_cases hcond : c.appState = .ImageCaptured ∧ c.mounted = true ∧ c.imageDataUrl ≠ none
  · by_cases hload : c.cropperLoaded = true
    · rw [if_pos hcond, if_pos hload]
      exact Or.inl ⟨rfl, rfl⟩
    · rw [if_pos hcond, if_neg hload]
      exact Or.inr ⟨rfl, rfl, hcond.1, hcond.2.1, hcond.2.2, by simpa using hload⟩
  · rw [if_neg hcond]
    exact Or.inl ⟨rfl, rfl⟩

theorem runEffectsAux_outcome (n : Nat) : ∀ c : Comp,
    ((runEffectsAux n c).appState = c.appState ∧ (runEffectsAux n c).error = c.error) ∨
    ((runEffectsAux n c).appState = .Error ∧
      (runEffectsAux n c).error = some cropperMissingMsg ∧
      c.appState = .ImageCaptured ∧ c.mounted = true ∧ c.imageDataUrl ≠ none ∧
      c.cropperLoaded = false) := by
  induction n with
  | zero => intro c; exact Or.inl ⟨rfl, rfl⟩
  | succ n ih =>
    intro c
    rw [runEffectsAux]
    split
    · exact Or.inl ⟨rfl, rfl⟩
    · have hY := effectStep_outcome c
      have hq1 := quiet_effectCleanup { c with lastDeps := depsOf c }
      have hq2 := quiet_effectBody (effectCleanup { c with lastDeps := depsOf c })
      rw [hq1] at hq2
      simp only [quiet, Prod.mk.injEq] at hq2
      obtain ⟨q1, q2, q3, q4, q5, q6, q7, q8, q9, q10, q11, q12, q13, q14⟩ := hq2
      rcases ih (effectBody (effectCleanup { c with lastDeps := depsOf c })) with
        ⟨h1, h2⟩ | ⟨h1, h2, h3, h4, h5, h6⟩
      · rcases hY with ⟨hA, hE⟩ | ⟨hA, hE, hc1, hc2, hc3, hc4⟩
        · exact Or.inl ⟨h1.trans hA, h2.trans hE⟩
        · exact Or.inr ⟨h1.trans hA, h2.trans hE, hc1, hc2, hc3, hc4⟩
      · rcases hY with ⟨hA, hE⟩ | ⟨hA, hE, hc1, hc2, hc3, hc4⟩
        · refine Or.inr ⟨h1, h2, ?_, ?_, ?_, ?_⟩
          · rw [← hA]; exact h3
          · rw [← q9]; exact h4
          · rw [← q1]; exact h5
          · rw [← q8]; exact h6
        · rw [hA] at h3
          cases h3

theorem runEffects_outcome (c : Comp) :
    ((runEffects c).appState = c.appState ∧ (runEffects c).error = c.error) ∨
    ((runEffects c).appState = .Error ∧ (runEffects c).error = some cropperMissingMsg ∧
      c.appState = .ImageCaptured ∧ c.mounted = true ∧ c.imageDataUrl ≠ none ∧
      c.cropperLoaded = false) := by
  unfold runEffects
  split
  · exact runEffectsAux_outcome 3 c
  · exact Or.inl ⟨rfl, rfl⟩

/-- In the `Error` state of a mounted component, the Try Again (reset)
action is available. -/
theorem resetClick_available {c : Comp} (hm : c.mounted = true)
    (he : c.appState = .Error) : stepE c .resetClick ≠ none := by
  simp [stepE, hm, he]

end VisionFen

namespace VisionFen

/-- Claim C8, amended: every transition that enters the `Failed` (`Error`)
state stores a non-null classified error message and renders the persistent
error view with the Try Again (reset) action available; but only
`PermissionDenied`, `NetworkFailure` and `InvalidServerResponse` additionally
fire exactly one transient notification — the `CropEngineUnavailable` and
`ImageEncodingFailed` paths fire none (`toastsOnFailure` counts the toast
calls in the source per event). -/
theorem c8_failed_entry {c c' : Comp} (e : Event) (hs : stepE c e = some c')
    (h0 : ¬ c.appState = .Error) (h1 : c'.appState = .Error) :
    renderContent c' = .errorV c'.error ∧
    c'.error ≠ none ∧
    stepE c' .resetClick ≠ none ∧
    c'.toasts = c.toasts + toastsOnFailure e := by
  cases e with
  | scanClick =>
    simp only [stepE] at hs
    split at hs
    · next hcond =>
      injection hs with hh
      subst hh
      rcases runEffects_outcome (requestCameraPermission c) with ⟨hA, _⟩ | ⟨_, _, hC, _, _, _⟩ <;>
        exfalso
      · rw [hA] at h1
        simp [requestCameraPermission, cleanupCamera_appState, hcond.2] at h1
      · simp [requestCameraPermission, cleanupCamera_appState, hcond.2] at hC
    · cases hs
  | cameraGrant n =>
    simp only [stepE] at hs
    split at hs
    · next hcond =>
      injection hs with hh
      subst hh
      by_cases hm : c.mounted = true
      · rcases runEffects_outcome (onCameraGranted n c) with ⟨hA, _⟩ | ⟨_, _, hC, _, _, _⟩ <;>
          exfalso
        · rw [hA] at h1
          simp [onCameraGranted, hm] at h1
        · simp [onCameraGranted, hm] at hC
      · rcases runEffects_outcome (onCameraGranted n c) with ⟨hA, _⟩ | ⟨_, _, _, hM, _, _⟩ <;>
          exfalso
        · rw [hA] at h1
          simp [onCameraGranted, hm] at h1
          exact h0 h1
        · simp [onCameraGranted, hm] at hM
    · cases hs
  | cameraDeny =>
    simp only [stepE] at hs
    split at hs
    · next hcond =>
      injection hs with hh
      subst hh
      by_cases hm : c.mounted = true
      · rcases runEffects_outcome (onCameraDenied c) with ⟨hA, hE⟩ | ⟨_, _, hC, _, _, _⟩
        · refine ⟨by simp [renderContent, h1], ?_, resetClick_available ?_ h1, ?_⟩
          · rw [hE]
            simp [onCameraDenied, hm]
          · rw [runEffects_mounted]
            simp [onCameraDenied, hm]
          · rw [runEffects_toasts]
            simp [onCameraDenied, hm, toastsOnFailure]
        · exfalso
          simp [onCameraDenied, hm] at hC
      · exfalso
        rcases runEffects_outcome (onCameraDenied c) with ⟨hA, _⟩ | ⟨_, _, _, hM, _, _⟩
        · rw [hA] at h1
          simp [onCameraDenied, hm] at h1
          exact h0 h1
        · simp [onCameraDenied, hm] at hM
    · cases hs
  | captureClick =>
    simp only [stepE] at hs
    split at hs
    · next hcond =>
      injection hs with hh
      subst hh
      rcases runEffects_outcome (handleCapture c) with ⟨hA, _⟩ | ⟨_, hE, _, hM, _, _⟩
      · exfalso
        rw [hA] at h1
        simp [handleCapture, hcond.1, cleanupCamera_appState] at h1
      · refine ⟨by simp [renderContent, h1], ?_, resetClick_available ?_ h1, ?_⟩
        · rw [hE]
          simp
        · rw [runEffects_mounted]
          exact hM
        · rw [runEffects_toasts]
          simp [handleCapture, hcond.1, cleanupCamera_toasts, toastsOnFailure]
    · cases hs
  | resetClick =>
    simp only [stepE] at hs
    split at hs
    · next hcond =>
      injection hs with hh
      subst hh
      rcases runEffects_outcome (handleReset c) with ⟨hA, _⟩ | ⟨_, _, hC, _, _, _⟩ <;> exfalso
      · rw [hA] at h1
        simp [handleReset] at h1
      · simp [handleReset] at hC
    · cases hs
  | retakeClick =>
    simp only [stepE] at hs
    split at hs
    · next hcond =>
      injection hs with hh
      subst hh
      rcases runEffects_outcome (handleRetake c) with ⟨hA, _⟩ | ⟨_, _, _, _, hU, _⟩ <;> exfalso
      · rw [hA] at h1
        simp [handleRetake, requestCameraPermission, cleanupCamera_appState, hcond.2] at h1
      · apply hU
        simp [handleRetake, requestCameraPermission, cleanupCamera_imageDataUrl]
    · cases hs
  | submitClick =>
    simp only [stepE] at hs
    split at hs
    · next hcond =>
      injection hs with hh
      subst hh
      rcases hcr : c.cropperRef with _ | cr
      · exact absurd hcr hcond.2.2
      · obtain ⟨d⟩ := cr
        rcases runEffects_outcome (handleSubmit c) with ⟨hA, _⟩ | ⟨_, _, hC, _, _, _⟩ <;> exfalso
        · rw [hA] at h1
          cases d <;> simp [handleSubmit, hcr] at h1
        · cases d <;> simp [handleSubmit, hcr] at hC
    · cases hs
  | blobReady ok =>
    simp only [stepE] at hs
    split at hs
    · next hcond =>
      injection hs with hh
      subst hh
      cases ok with
      | true =>
        rcases runEffects_outcome (onBlobReady true c) with ⟨hA, _⟩ | ⟨_, hE, _, hM, _, _⟩
        · exfalso
          rw [hA] at h1
          simp [onBlobReady] at h1
          exact h0 h1
        · refine ⟨by simp [renderContent, h1], ?_, resetClick_available ?_ h1, ?_⟩
          · rw [hE]
            simp
          · rw [runEffects_mounted]
            exact hM
          · rw [runEffects_toasts]
            simp [onBlobReady, toastsOnFailure]
      | false =>
        by_cases hm : c.mounted = true
        · rcases runEffects_outcome (onBlobReady false c) with ⟨hA, hE⟩ | ⟨_, _, hC, _, _, _⟩
          · refine ⟨by simp [renderContent, h1], ?_, resetClick_available ?_ h1, ?_⟩
            · rw [hE]
              simp [onBlobReady, hm]
            · rw [runEffects_mounted]
              simp [onBlobReady, hm]
            · rw [runEffects_toasts]
              simp [onBlobReady, hm, toastsOnFailure]
          · exfalso
            simp [onBlobReady, hm] at hC
        · exfalso
          rcases runEffects_outcome (onBlobReady false c) with ⟨hA, _⟩ | ⟨_, _, _, hM, _, _⟩
          · rw [hA] at h1
            simp [onBlobReady, hm] at h1
            exact h0 h1
          · simp [onBlobReady, hm] at hM
    · cases hs
  | fetchResolve status body =>
    simp only [stepE] at hs
    split at hs
    · next hcond =>
      injection hs with hh
      subst hh
      cases hcls : classifyResponse status body with
      | ok v =>
        by_cases hm : c.mounted = true
        · rcases runEffects_outcome (onFetchResolved status body c) with
            ⟨hA, _⟩ | ⟨_, _, hC, _, _, _⟩ <;> exfalso
          · rw [hA] at h1
            simp [onFetchResolved, hcls, hm] at h1
          · simp [onFetchResolved, hcls, hm] at hC
        · rcases runEffects_outcome (onFetchResolved status body c) with
            ⟨hA, _⟩ | ⟨_, _, _, hM, _, _⟩ <;> exfalso
          · rw [hA] at h1
            simp [onFetchResolved, hcls, hm] at h1
            exact h0 h1
          · simp [onFetchResolved, hcls, hm] at hM
      | error k =>
        by_cases hm : c.mounted = true
        · rcases runEffects_outcome (onFetchResolved status body c) with
            ⟨hA, hE⟩ | ⟨_, _, hC, _, _, _⟩
          · refine ⟨by simp [renderContent, h1], ?_, resetClick_available ?_ h1, ?_⟩
            · rw [hE]
              simp [onFetchResolved, hcls, hm]
            · rw [runEffects_mounted]
              simp [onFetchResolved, hcls, hm]
            · rw [runEffects_toasts]
              simp [onFetchResolved, hcls, hm, toastsOnFailure]
          · exfalso
            simp [onFetchResolved, hcls, hm] at hC
        · exfalso
          rcases runEffects_outcome (onFetchResolved status body c) with
            ⟨hA, _⟩ | ⟨_, _, _, hM, _, _⟩
          · rw [hA] at h1
            simp [onFetchResolved, hcls, hm] at h1
            exact h0 h1
          · simp [onFetchResolved, hcls, hm] at hM
    · cases hs
  | fetchReject =>
    simp only [stepE] at hs
    split at hs
    · next hcond =>
      injection hs with hh
      subst hh
      by_cases hm : c.mounted = true
      · rcases runEffects_outcome (onFetchRejected c) with ⟨hA, hE⟩ | ⟨_, _, hC, _, _, _⟩
        · refine ⟨by simp [renderContent, h1], ?_, resetClick_available ?_ h1, ?_⟩
          · rw [hE]
            simp [onFetchRejected, hm]
          · rw [runEffects_mounted]
            simp [onFetchRejected, hm]
          · rw [runEffects_toasts]
            simp [onFetchRejected, hm, toastsOnFailure]
        · exfalso
          simp [onFetchRejected, hm] at hC
      · exfalso
        rcases runEffects_outcome (onFetchRejected c) with ⟨hA, _⟩ | ⟨_, _, _, hM, _, _⟩
        · rw [hA] at h1
          simp [onFetchRejected, hm] at h1
          exact h0 h1
        · simp [onFetchRejected, hm] at hM
    · cases hs
  | unmount =>
    simp only [stepE] at hs
    split at hs
    · next hcond =>
      injection hs with hh
      subst hh
      exfalso
      simp [effectCleanup] at h1
      exact h0 h1
    · cases hs

end VisionFen

namespace VisionFen

/-- Witness for C4 at status 500, empty-string `fen`, and a concrete
submitting component. -/
theorem c4_response_classification_witness :
    classifyResponse 500 (some fenBody) = .error .NetworkFailure ∧
    classifyResponse 200 (some (.jobj [("fen", .jstr "")])) = .error .InvalidServerResponse ∧
    (runEffects (onFetchResolved 500 (some fenBody) compSubmitting)).appState = .Error :=
  ⟨(c4_response_classification 500 (some fenBody)).1 rfl,
   (c4_response_classification 200 (some (.jobj [("fen", .jstr "")]))).2.1 rfl rfl,
   ((c4_response_classification 500 (some fenBody)).2.2.1 compSubmitting rfl
      .NetworkFailure rfl).1⟩

/-- Witness for C5 at the spec's example FEN string. -/
theorem c5_valid_fen_completes_witness :
    (runEffects (onFetchResolved 200 (some fenBody) compSubmitting)).appState = .FenReceived ∧
    (runEffects (onFetchResolved 200 (some fenBody) compSubmitting)).fen =
      some (JPrim.jstr fenExample) :=
  c5_valid_fen_completes compSubmitting 200 fenBody fenExample rfl rfl rfl rfl rfl (by decide)

/-- Witness for C6 on a component owning a live two-track stream. -/
theorem c6_release_idempotent_witness :
    (cleanupCamera compWithStream).videoSrcObject = none ∧
    streamStopped (cleanupCamera compWithStream).streams 0 = true :=
  ⟨(c6_release_idempotent compWithStream).2.2.1 rfl,
   (c6_release_idempotent compWithStream).2.2.2 0 rfl⟩

/-- Witness for C7 at a 1024×768 source frame and a concrete null-blob
failure. -/
theorem c7_finalize_normalized_witness :
    finalizeCrop 1024 768 true = some { mime := "image/jpeg", width := 512, height := 512 } ∧
    (runEffects (onBlobReady false compBlobPending)).appState = .Error :=
  ⟨(c7_finalize_normalized 1024 768).1,
   ((c7_finalize_normalized 1024 768).2.2.2.2 compBlobPending rfl).1⟩

/-- Witness for C8 at a concrete network rejection. -/
theorem c8_failed_entry_witness :
    renderContent compFailedNet = .errorV compFailedNet.error ∧
    compFailedNet.toasts = compSubmitting.toasts + toastsOnFailure .fetchReject :=
  ⟨(c8_failed_entry .fetchReject
      (show stepE compSubmitting .fetchReject = some compFailedNet from rfl)
      (by decide) rfl).1,
   (c8_failed_entry .fetchReject
      (show stepE compSubmitting .fetchReject = some compFailedNet from rfl)
      (by decide) rfl).2.2.2⟩

/-- Witness for C9 at the concrete blob-arrival step. -/
theorem c9_submit_request_witness :
    compFetchStarted.requests.length = compBlobPending.requests.length + 1 :=
  (c9_submit_request).2 compBlobPending compFetchStarted (.blobReady true) rfl

/-- Witness for C10 on a component owning a live two-track stream. -/
theorem c10_reset_restores_initial_witness :
    (runEffects (handleReset compWithStream)).appState = .Idle ∧
    streamStopped (runEffects (handleReset compWithStream)).streams 0 = true :=
  ⟨(c10_reset_restores_initial compWithStream rfl).1,
   (c10_reset_restores_initial compWithStream rfl).2.2.2.2.2.2.2 0 rfl⟩

end VisionFen
